import Mathlib

/-!
Shallow embedding of the KUOTA credential & usage synchronization engine.

The definitions below are translated from the repository source:
* `src/services/crypto.js` — `encrypt` / `decrypt` (AES-256-GCM secret vault);
* `src/services/crypto.js` (Claude OAuth section) — `needsRefresh` / `getValidToken`;
* `src/services/github.js` — `parseUsageData` and the billing endpoints;
* `src/db/sqlite.js` — `upsertUsageHistory`, `getLatestUsage`,
  `clearUsageDetails`, `insertUsageDetail`, `updateAccount`, `PLAN_LIMITS`;
* the API route module — `fetchAndStoreUsage` (with its inner `saveUsage` and
  `tryOrgEndpoints`), `fetchCopilotActivity`, `fetchAndStoreClaudeUsage`,
  `fetchAndStoreClaudeWebUsage`, `refreshAccount`, and the `rateLimit`
  middleware.

HTTP calls are modelled by oracle structures (`Network`): each oracle field
stands for one provider endpoint with the account's credential already
applied, returning `Except Unit data` (an `error` models a thrown / non-2xx
HTTP failure that the source catches).  The AES-256-GCM primitive itself is
Node library code, not repository code; it is modelled by an abstract
`GcmModel` (keystream core plus a tag function of key, IV and ciphertext,
checked on decrypt), with its two standard properties taken as explicit
hypotheses where a theorem needs them.
-/

namespace Kuota

/-! ### JavaScript-style helpers -/

/-- `a || b` for JS numbers held in an `Option` (`none` = `undefined`):
`0` and `undefined` are falsy. -/
def jsOr (o : Option ℚ) (d : ℚ) : ℚ :=
  match o with
  | none => d
  | some x => if x = 0 then d else x

/-- `a || b` for JS strings held in an `Option`: `""` and `undefined` are falsy. -/
def jsOrS (o : Option String) (d : String) : String :=
  match o with
  | none => d
  | some s => if s = "" then d else s

/-- Truthiness of a JS string-valued expression. -/
def truthyS (o : Option String) : Bool :=
  jsOrS o "" ≠ ""

/-! Rational arithmetic.  Mathlib's `Rat.add`/`mul`/`div` are `@[irreducible]`
and cannot be evaluated on concrete inputs, so the embedding computes with
the following kernel-reducible equivalents (each proved equal to the Mathlib
operation below). -/

def qAdd (a b : ℚ) : ℚ := mkRat (a.num * b.den + b.num * a.den) (a.den * b.den)

def qMul (a b : ℚ) : ℚ := mkRat (a.num * b.num) (a.den * b.den)

def qInv (b : ℚ) : ℚ :=
  if 0 ≤ b.num then mkRat b.den b.num.toNat
  else mkRat (-(b.den : ℤ)) (-b.num).toNat

def qDiv (a b : ℚ) : ℚ := qMul a (qInv b)

/-- `Math.round` (round half towards positive infinity), as used for the
one-decimal percentage rounding: `⌊x + 1/2⌋`, computed by floor division. -/
def jsRound (x : ℚ) : ℤ :=
  (qAdd x (mkRat 1 2)).num.fdiv ((qAdd x (mkRat 1 2)).den : ℤ)

/-- `s.toLowerCase()` (character-wise, over the string's character list). -/
def strToLower (s : String) : String := String.mk (s.data.map Char.toLower)

/-- `s.split(sep)` at the character-list level (JS `split` yields `[""]` on
the empty string and keeps empty segments). -/
def splitChar (sep : Char) : List Char → List (List Char)
  | [] => [[]]
  | c :: rest =>
    let r := splitChar sep rest
    if c = sep then [] :: r
    else (c :: r.headD []) :: r.tail

/-- `s.split(sep)` for strings. -/
def jsSplit (sep : Char) (s : String) : List String :=
  (splitChar sep s.data).map String.mk

/-- `s.trim()`. -/
def jsTrim (s : String) : String :=
  String.mk (((s.data.dropWhile Char.isWhitespace).reverse.dropWhile
    Char.isWhitespace).reverse)

/-! ### CredentialVault: `encrypt` / `decrypt` from `src/services/crypto.js`

Token strings are modelled as `List Char`; byte buffers as `List (Fin 256)`.
Node's lowercase hex alphabet is used (the alphabet `encrypt` emits). -/

abbrev Byte := Fin 256

def hexAlphabet : List Char := "0123456789abcdef".data

def hexChar (n : Nat) : Char := hexAlphabet.getD n '0'

def hexVal (c : Char) : Option (Fin 16) :=
  let i := hexAlphabet.indexOf c
  if h : i < 16 then some ⟨i, h⟩ else none

/-- `Buffer.toString("hex")`. -/
def hexEncode : List Byte → List Char
  | [] => []
  | b :: bs => hexChar (b.val / 16) :: hexChar (b.val % 16) :: hexEncode bs

/-- `Buffer.from(s, "hex")`, strict on the valid lowercase-hex inputs the
claims quantify over (an undecodable segment is treated as the thrown path). -/
def hexDecode : List Char → Option (List Byte)
  | [] => some []
  | [_] => none
  | c1 :: c2 :: rest =>
    match hexVal c1, hexVal c2, hexDecode rest with
    | some h, some l, some bs =>
      some (⟨h.val * 16 + l.val, by have := h.isLt; have := l.isLt; omega⟩ :: bs)
    | _, _, _ => none

/-- `data.split(":")`. -/
def splitColon : List Char → List (List Char)
  | [] => [[]]
  | c :: rest =>
    let r := splitColon rest
    if c = ':' then [] :: r
    else (c :: r.headD []) :: r.tail

/-- Abstract model of the `aes-256-gcm` cipher used through
`createCipheriv` / `createDecipheriv`: a core that maps plaintext bytes to
ciphertext bytes under (key, IV), its inverse direction, and the
authentication tag as a deterministic function of key, IV and ciphertext,
which `decipher.final()` checks. -/
structure GcmModel where
  encCore : Nat → List Byte → List Byte → List Byte
  decCore : Nat → List Byte → List Byte → List Byte
  mac : Nat → List Byte → List Byte → List Byte

/-- `encrypt(text)` from `crypto.js`: empty input is a no-op; otherwise pack
`iv:tag:ciphertext` as colon-separated hex fields.  The fresh random IV is a
parameter. -/
def encrypt (g : GcmModel) (key : Nat) (iv : List Byte) (text : List Byte) : List Char :=
  if text = [] then []
  else
    let ct := g.encCore key iv text
    let tag := g.mac key iv ct
    hexEncode iv ++ ':' :: hexEncode tag ++ ':' :: hexEncode ct

def req {α : Type} (o : Option α) : Except Unit α :=
  match o with
  | some a => Except.ok a
  | none => Except.error ()

/-- The body of the `try` block of `decrypt(data)`: destructure
`data.split(":")` into three segments, hex-decode them, and run the
authenticated decryption (tag verified by `decipher.final()`).
An `error` result models a thrown exception. -/
def decryptBody (g : GcmModel) (key : Nat) (data : List Char) : Except Unit (List Byte) := do
  let parts := splitColon data
  let ivHex ← req (parts.get? 0)
  let tagHex ← req (parts.get? 1)
  let ctHex ← req (parts.get? 2)
  let iv ← req (hexDecode ivHex)
  let tag ← req (hexDecode tagHex)
  let ct ← req (hexDecode ctHex)
  if g.mac key iv ct = tag then Except.ok (g.decCore key iv ct) else Except.error ()

/-- `decrypt(data)` from `crypto.js`: empty input is a no-op, and every
exception of the body is caught and turned into the empty string. -/
def decrypt (g : GcmModel) (key : Nat) (data : List Char) : List Byte :=
  if data = [] then []
  else
    match decryptBody g key data with
    | Except.ok s => s
    | Except.error _ => []

/-- A concrete toy instance of the cipher model (identity core, identity tag),
used to witness the crypto theorems. -/
def toyGcm : GcmModel := ⟨fun _ _ t => t, fun _ _ t => t, fun _ _ c => c⟩

/-! ### Data model: the SQLite rows of `src/db/schema.js` and the access
functions of `src/db/sqlite.js` -/

structure AccountRow where
  id : Nat
  github_username : String := ""
  avatar_url : String := ""
  display_name : String := ""
  oauth_token : String := ""
  pat_token : String := ""
  copilot_plan : String := "pro"
  is_favorite : Nat := 0
  account_type : String := "copilot"
  claude_user_email : String := ""
  claude_plan : String := ""
  monthly_budget : ℚ := 0
  claude_org_id : String := ""
  claude_cf_clearance : String := ""
  claude_token_expires_at : Int := 0
  github_orgs : String := ""
  login_method : String := ""
  note : String := ""
  is_paused : Nat := 0
  billing_org : String := ""
  last_activity_at : String := ""
  last_activity_editor : String := ""
  reset_date : String := ""
  github_email : String := ""
  deriving DecidableEq, Repr

structure HistoryRow where
  id : Nat
  account_id : Nat
  year : Nat
  month : Nat
  gross_quantity : ℚ := 0
  included_quantity : ℚ := 0
  net_amount : ℚ := 0
  plan_limit : ℚ := 300
  percentage : ℚ := 0
  sessions : Nat := 0
  lines_added : Nat := 0
  lines_removed : Nat := 0
  commits : Nat := 0
  pull_requests : Nat := 0
  session_usage_pct : ℚ := 0
  weekly_usage_pct : ℚ := 0
  weekly_reset_at : String := ""
  extra_usage_enabled : Nat := 0
  extra_usage_spent : ℚ := 0
  extra_usage_limit : ℚ := 0
  extra_usage_balance : ℚ := 0
  extra_usage_reset_at : String := ""
  fetched_at : Nat := 0
  deriving DecidableEq, Repr

structure DetailRow where
  id : Nat
  history_id : Nat
  model : String := ""
  quantity : ℚ := 0
  price_per_unit : ℚ := mkRat 1 25
  net_amount : ℚ := 0
  input_tokens : Nat := 0
  output_tokens : Nat := 0
  cache_read_tokens : Nat := 0
  cache_creation_tokens : Nat := 0
  deriving DecidableEq, Repr

/-- The SQLite database: table contents plus autoincrement counters and the
current `datetime('now')` used for `fetched_at`. -/
structure Db where
  accounts : List AccountRow := []
  history : List HistoryRow := []
  details : List DetailRow := []
  nextHistoryId : Nat := 1
  nextDetailId : Nat := 1
  now : Nat := 0
  deriving DecidableEq, Repr

/-- The argument object of `upsertUsageHistory` (fields the caller may omit
are `Option`, mirroring `undefined`). -/
structure UpsertInput where
  account_id : Nat
  year : Nat
  month : Nat
  gross_quantity : ℚ
  included_quantity : ℚ
  net_amount : ℚ
  plan_limit : ℚ
  percentage : ℚ
  sessions : Option Nat := none
  lines_added : Option Nat := none
  lines_removed : Option Nat := none
  commits : Option Nat := none
  pull_requests : Option Nat := none
  session_usage_pct : Option ℚ := none
  weekly_usage_pct : Option ℚ := none
  weekly_reset_at : Option String := none
  extra_usage_enabled : Option Bool := none
  extra_usage_spent : Option ℚ := none
  extra_usage_limit : Option ℚ := none
  extra_usage_balance : Option ℚ := none
  extra_usage_reset_at : Option String := none
  deriving DecidableEq, Repr

/-- The `values` object built inside `upsertUsageHistory`, applied at a given
row id: every non-key column (including `fetched_at`) comes from the call,
with the `|| 0` / `? 1 : 0` defaults of the source. -/
def applyVals (v : UpsertInput) (now : Nat) (id : Nat) : HistoryRow :=
  { id := id
    account_id := v.account_id
    year := v.year
    month := v.month
    gross_quantity := v.gross_quantity
    included_quantity := v.included_quantity
    net_amount := v.net_amount
    plan_limit := v.plan_limit
    percentage := v.percentage
    sessions := v.sessions.getD 0
    lines_added := v.lines_added.getD 0
    lines_removed := v.lines_removed.getD 0
    commits := v.commits.getD 0
    pull_requests := v.pull_requests.getD 0
    session_usage_pct := v.session_usage_pct.getD 0
    weekly_usage_pct := v.weekly_usage_pct.getD 0
    weekly_reset_at := v.weekly_reset_at.getD ""
    extra_usage_enabled := if v.extra_usage_enabled.getD false then 1 else 0
    extra_usage_spent := v.extra_usage_spent.getD 0
    extra_usage_limit := v.extra_usage_limit.getD 0
    extra_usage_balance := v.extra_usage_balance.getD 0
    extra_usage_reset_at := v.extra_usage_reset_at.getD ""
    fetched_at := now }

/-- The `uq_account_period` conflict target: (account_id, year, month). -/
def sameKey (v : UpsertInput) (r : HistoryRow) : Bool :=
  r.account_id == v.account_id && r.year == v.year && r.month == v.month

/-- `upsertUsageHistory` from `src/db/sqlite.js`:
`INSERT ... ON CONFLICT (account_id, year, month) DO UPDATE` setting every
non-target column from `excluded`. -/
def upsertUsageHistory (db : Db) (v : UpsertInput) : Db :=
  if db.history.any (sameKey v) then
    { db with history :=
        db.history.map (fun r => if sameKey v r then applyVals v db.now r.id else r) }
  else
    { db with
      history := db.history ++ [applyVals v db.now db.nextHistoryId]
      nextHistoryId := db.nextHistoryId + 1 }

def periodLater (a b : HistoryRow) : Bool :=
  a.year > b.year || (a.year == b.year && a.month > b.month)

/-- `getLatestUsage`: `ORDER BY year DESC, month DESC LIMIT 1` over the
account's rows. -/
def getLatestUsage (db : Db) (account_id : Nat) : Option HistoryRow :=
  (db.history.filter (fun r => r.account_id == account_id)).foldl
    (fun best r =>
      match best with
      | none => some r
      | some b => if periodLater r b then some r else some b) none

/-- `clearUsageDetails`: delete every detail row owned by one history row. -/
def clearUsageDetails (db : Db) (history_id : Nat) : Db :=
  { db with details := db.details.filter (fun d => d.history_id != history_id) }

structure DetailInput where
  history_id : Nat
  model : String
  quantity : ℚ
  price_per_unit : ℚ
  net_amount : ℚ
  input_tokens : Option Nat := none
  output_tokens : Option Nat := none
  cache_read_tokens : Option Nat := none
  cache_creation_tokens : Option Nat := none
  deriving DecidableEq, Repr

/-- `insertUsageDetail` from `src/db/sqlite.js`. -/
def insertUsageDetail (db : Db) (v : DetailInput) : Db :=
  { db with
    details := db.details ++
      [{ id := db.nextDetailId
         history_id := v.history_id
         model := v.model
         quantity := v.quantity
         price_per_unit := v.price_per_unit
         net_amount := v.net_amount
         input_tokens := v.input_tokens.getD 0
         output_tokens := v.output_tokens.getD 0
         cache_read_tokens := v.cache_read_tokens.getD 0
         cache_creation_tokens := v.cache_creation_tokens.getD 0 }]
    nextDetailId := db.nextDetailId + 1 }

def getAccountById (db : Db) (id : Nat) : Option AccountRow :=
  db.accounts.find? (fun a => a.id == id)

/-- `updateAccount(id, fields)`: the partial column update is represented by
an update function carrying exactly the assigned fields. -/
def updateAccount (db : Db) (id : Nat) (f : AccountRow → AccountRow) : Db :=
  { db with accounts := db.accounts.map (fun a => if a.id == id then f a else a) }

/-- `PLAN_LIMITS[plan] || 300`. -/
def planLimitOf (plan : String) : ℚ :=
  if plan = "free" then 50
  else if plan = "pro" then 300
  else if plan = "pro_plus" then 1500
  else if plan = "business" then 300
  else if plan = "enterprise" then 1000
  else 300

/-- `CLAUDE_CODE_BUDGETS[plan]` (`none` = `undefined`). -/
def claudeBudgetOf (plan : String) : Option ℚ :=
  if plan = "api" then some 100
  else if plan = "pro" then some 20
  else if plan = "max" then some 100
  else if plan = "team" then some 150
  else if plan = "enterprise" then some 500
  else none

/-- First concrete upsert input used by the C8 witness. -/
def w8v1 : UpsertInput :=
  { account_id := 1, year := 2025, month := 10, gross_quantity := 120,
    included_quantity := 0, net_amount := 0, plan_limit := 300, percentage := 40 }

/-- Second concrete upsert input used by the C8 witness (same key, new values). -/
def w8v2 : UpsertInput :=
  { account_id := 1, year := 2025, month := 10, gross_quantity := 150,
    included_quantity := 0, net_amount := 2, plan_limit := 300, percentage := 50 }

/-! ### TokenLifecycleManager: `needsRefresh` / `getValidToken` from the
Claude OAuth section of the crypto service -/

def REFRESH_BUFFER_MS : Int := 5 * 60 * 1000

/-- `needsRefresh(expiresAt)`: true when no expiry is known (falsy `0`) or the
current time has reached the safety buffer before expiry. -/
def needsRefresh (now expiresAt : Int) : Bool :=
  if expiresAt = 0 then true else now ≥ expiresAt - REFRESH_BUFFER_MS

/-- The result of `refreshAccessToken` (with its `|| refreshToken` and
`|| 3600` defaults already applied by that function). -/
structure RefreshResult where
  accessToken : String
  refreshToken : String
  expiresIn : Int
  deriving DecidableEq, Repr

structure TokenOut where
  accessToken : String
  refreshToken : String
  expiresAt : Int
  refreshed : Bool
  deriving DecidableEq, Repr

/-- `getValidToken(accessToken, refreshToken, expiresAt)`; the token endpoint
is an oracle for `refreshAccessToken`, whose `error` is a thrown exception
(`invalid_grant` or any HTTP failure). -/
def getValidToken (refreshOracle : Except String RefreshResult) (now : Int)
    (accessToken refreshToken : String) (expiresAt : Int) : Except String TokenOut :=
  if needsRefresh now expiresAt = false then
    Except.ok ⟨accessToken, refreshToken, expiresAt, false⟩
  else if refreshToken = "" then
    Except.error "Token expired and no refresh token. Re-login with claude CLI."
  else
    match refreshOracle with
    | Except.error e => Except.error e
    | Except.ok r =>
      Except.ok ⟨r.accessToken, r.refreshToken, now + r.expiresIn * 1000, true⟩

/-! ### Copilot adapter: `parseUsageData` from `src/services/github.js` -/

structure UsageItem where
  product : String := ""
  grossQuantity : Option ℚ := none
  quantity : Option ℚ := none
  discountAmount : Option ℚ := none
  pricePerUnit : Option ℚ := none
  netAmount : Option ℚ := none
  model : Option String := none
  sku : Option String := none
  deriving DecidableEq, Repr

structure UsageData where
  usageItems : Option (List UsageItem) := none
  deriving DecidableEq, Repr

structure ModelItem where
  model : String
  quantity : ℚ
  price_per_unit : ℚ
  net_amount : ℚ
  deriving DecidableEq, Repr

structure Parsed where
  grossQuantity : ℚ
  includedQuantity : ℚ
  netAmount : ℚ
  percentage : ℚ
  models : List ModelItem
  deriving DecidableEq, Repr

/-- `(data.usageItems || []).filter(i => i.product && i.product.toLowerCase() === "copilot")`. -/
def copilotItems (data : UsageData) : List UsageItem :=
  (data.usageItems.getD []).filter
    (fun i => i.product != "" && strToLower i.product == "copilot")

/-- The loop body of `parseUsageData`, accumulating
(grossQuantity, includedQuantity, netAmount, models). -/
def parseStep (acc : ℚ × ℚ × ℚ × List ModelItem) (item : UsageItem) :
    ℚ × ℚ × ℚ × List ModelItem :=
  let qty := jsOr item.grossQuantity (jsOr item.quantity 0)
  let discount := jsOr item.discountAmount 0
  let ppu := jsOr item.pricePerUnit (mkRat 1 25)
  let net := jsOr item.netAmount 0
  let included := if ppu > 0 then qDiv discount ppu else 0
  let models :=
    if truthyS item.model || truthyS item.sku then
      acc.2.2.2 ++ [⟨jsOrS item.model (jsOrS item.sku "Unknown"), qty, ppu, net⟩]
    else acc.2.2.2
  (qAdd acc.1 qty, qAdd acc.2.1 included, qAdd acc.2.2.1 net, models)

/-- `parseUsageData(data, planLimit)` from `src/services/github.js`. -/
def parseUsageData (data : UsageData) (planLimit : ℚ) : Parsed :=
  let r := (copilotItems data).foldl parseStep (0, 0, 0, [])
  let percentage := if planLimit > 0 then qMul (qDiv r.1 planLimit) 100 else 0
  ⟨r.1, r.2.1, r.2.2.1, qDiv (jsRound (qMul percentage 10) : ℚ) 10, r.2.2.2⟩

/-- The inline Copilot sums of the org general-billing leg of
`tryOrgEndpoints` (same filter, summing only gross and net). -/
def orgBillingSums (data : UsageData) : ℚ × ℚ :=
  (copilotItems data).foldl
    (fun acc item =>
      (qAdd acc.1 (jsOr item.grossQuantity (jsOr item.quantity 0)),
       qAdd acc.2 (jsOr item.netAmount 0))) (0, 0)

/-! ### The network oracle and the call trace -/

inductive Call where
  | orgPremium (org : String) (user : Option String)
  | orgBilling (org : String)
  | userPremium
  | userBilling
  | userOrgs
  | ghUser
  | seatActivity (org : String)
  | claudeMonth
  | claudeWeb
  | tokenExchange
  deriving DecidableEq, Repr

structure UserInfo where
  login : String
  name : Option String := none
  avatar_url : String := ""
  deriving DecidableEq, Repr

structure Activity where
  last_activity_at : String := ""
  last_activity_editor : String := ""
  deriving DecidableEq, Repr

structure ClaudeModelRow where
  model : String
  input_tokens : Nat
  output_tokens : Nat
  cache_read_tokens : Nat
  cache_creation_tokens : Nat
  estimated_cost_cents : ℚ
  deriving DecidableEq, Repr

/-- The aggregate produced by `getClaudeCodeMonthUsage` + `parseClaudeCodeData`
(the Claude-Admin adapter's month scan), as consumed by
`fetchAndStoreClaudeUsage`. -/
structure ClaudeParsed where
  totalCostUSD : ℚ
  sessions : Nat
  linesAdded : Nat
  linesRemoved : Nat
  commits : Nat
  pullRequests : Nat
  models : List ClaudeModelRow
  deriving DecidableEq, Repr

/-- The normalized result of `getClaudeWebUsage`. -/
structure ClaudeWebData where
  sessionUsagePct : ℚ := 0
  weeklyUsagePct : ℚ := 0
  weeklyResetAt : Option String := none
  extraUsageEnabled : Bool := false
  extraUsageSpent : ℚ := 0
  extraUsageLimit : ℚ := 0
  extraUsageBalance : ℚ := 0
  deriving DecidableEq, Repr

/-- The HTTP layer: one oracle per provider endpoint, with the account's
credential already applied.  `Except.error ()` models a thrown / non-2xx call
(which the source catches); `userOrgList` models `getUserOrgs`, which catches
internally and yields `[]` on failure. -/
structure Network where
  orgPremiumUsage : String → Option String → Except Unit UsageData
  orgBillingUsage : String → Except Unit UsageData
  userPremiumUsage : Except Unit UsageData
  userBillingUsage : Except Unit UsageData
  userOrgList : List String
  ghUser : Except Unit UserInfo
  seatActivity : String → Except Unit (Option Activity)
  claudeMonth : Except Unit ClaudeParsed
  claudeWeb : Except Unit ClaudeWebData
  tokenExchange : Except String RefreshResult

/-! ### UsageReconciler: `fetchAndStoreUsage` and its helpers -/

structure FetchCtx where
  accountId : Nat
  username : String
  plan : String
  year : Nat
  month : Nat
  deriving DecidableEq, Repr

/-- The `upsertUsageHistory` argument built by `saveUsage`. -/
def saveInput (ctx : FetchCtx) (planLimit : ℚ) (parsed : Parsed) : UpsertInput :=
  { account_id := ctx.accountId, year := ctx.year, month := ctx.month,
    gross_quantity := parsed.grossQuantity,
    included_quantity := parsed.includedQuantity,
    net_amount := parsed.netAmount, plan_limit := planLimit,
    percentage := parsed.percentage }

/-- The inner `saveUsage(parsed)` helper of `fetchAndStoreUsage`: upsert the
month row; then, only when the parsed breakdown is non-empty, replace the
latest history row's detail rows (delete-then-insert). -/
def saveUsage (ctx : FetchCtx) (planLimit : ℚ) (parsed : Parsed) (db : Db) : Db :=
  let db1 := upsertUsageHistory db (saveInput ctx planLimit parsed)
  match getLatestUsage db1 ctx.accountId with
  | some usage =>
    if parsed.models.length > 0 then
      let db2 := clearUsageDetails db1 usage.id
      parsed.models.foldl
        (fun d m => insertUsageDetail d
          { history_id := usage.id, model := m.model, quantity := m.quantity,
            price_per_unit := m.price_per_unit, net_amount := m.net_amount }) db2
    else db1
  | none => db1

/-- Third leg of `tryOrgEndpoints`: the organization's general billing
endpoint with its inline Copilot filter/sums. -/
def tryOrgBillingLeg (net : Network) (ctx : FetchCtx) (planLimit : ℚ) (org : String)
    (db : Db) (tr : List Call) : Option Parsed × Db × List Call :=
  let tr' := tr ++ [Call.orgBilling org]
  match net.orgBillingUsage org with
  | Except.ok data =>
    let s := orgBillingSums data
    if s.1 > 0 then
      let percentage := if planLimit > 0 then qMul (qDiv s.1 planLimit) 100 else 0
      let parsed : Parsed := ⟨s.1, 0, s.2, qDiv (jsRound (qMul percentage 10) : ℚ) 10, []⟩
      (some parsed, saveUsage ctx planLimit parsed db, tr')
    else (none, db, tr')
  | Except.error _ => (none, db, tr')

/-- Second leg of `tryOrgEndpoints`: the org premium-request endpoint without
the user filter. -/
def tryOrgUnfilteredLeg (net : Network) (ctx : FetchCtx) (planLimit : ℚ) (org : String)
    (db : Db) (tr : List Call) : Option Parsed × Db × List Call :=
  let tr' := tr ++ [Call.orgPremium org none]
  match net.orgPremiumUsage org none with
  | Except.ok data =>
    let parsed := parseUsageData data planLimit
    if parsed.grossQuantity > 0 then
      (some parsed, saveUsage ctx planLimit parsed db, tr')
    else tryOrgBillingLeg net ctx planLimit org db tr'
  | Except.error _ => tryOrgBillingLeg net ctx planLimit org db tr'

/-- `tryOrgEndpoints(org)`: user-filtered premium request, then unfiltered
premium request, then the org's general billing endpoint, short-circuiting on
the first leg whose parsed `grossQuantity > 0` (which it saves). -/
def tryOrgEndpoints (net : Network) (ctx : FetchCtx) (planLimit : ℚ) (org : String)
    (db : Db) (tr : List Call) : Option Parsed × Db × List Call :=
  let tr' := tr ++ [Call.orgPremium org (some ctx.username)]
  match net.orgPremiumUsage org (some ctx.username) with
  | Except.ok data =>
    let parsed := parseUsageData data planLimit
    if parsed.grossQuantity > 0 then
      (some parsed, saveUsage ctx planLimit parsed db, tr')
    else tryOrgUnfilteredLeg net ctx planLimit org db tr'
  | Except.error _ => tryOrgUnfilteredLeg net ctx planLimit org db tr'

/-- `github_orgs ? github_orgs.split(",").filter(Boolean) : []`. -/
def splitOrgs (s : String) : List String :=
  if s = "" then [] else (jsSplit ',' s).filter (fun x => x != "")

def joinComma (l : List String) : String := String.intercalate "," l

/-- The `for (const org of allOrgs)` scan of `fetchAndStoreUsage`: skip the
already-tried billing org, probe each other org with `tryOrgEndpoints`, and
on the first success persist the discovered org as `billing_org` when none
was set. -/
def orgScanLoop (net : Network) (ctx : FetchCtx) (planLimit : ℚ) (billingOrg : String) :
    List String → Db → List Call → Option Parsed × Db × List Call
  | [], db, tr => (none, db, tr)
  | org :: rest, db, tr =>
    if org = billingOrg then orgScanLoop net ctx planLimit billingOrg rest db tr
    else
      match tryOrgEndpoints net ctx planLimit org db tr with
      | (some parsed, db1, tr1) =>
        let db2 :=
          if billingOrg = "" then
            updateAccount db1 ctx.accountId (fun a => { a with billing_org := org })
          else db1
        (some parsed, db2, tr1)
      | (none, db1, tr1) => orgScanLoop net ctx planLimit billingOrg rest db1 tr1

/-- The zero-usage `upsertUsageHistory` argument of the final fallback. -/
def zeroInput (ctx : FetchCtx) (planLimit : ℚ) : UpsertInput :=
  { account_id := ctx.accountId, year := ctx.year, month := ctx.month,
    gross_quantity := 0, included_quantity := 0, net_amount := 0,
    plan_limit := planLimit, percentage := 0 }

/-- Step 5 of `fetchAndStoreUsage`: no source yielded data — persist a
zero-usage row and return `undefined`. -/
def fetchZeroFallback (ctx : FetchCtx) (planLimit : ℚ) (db : Db) (tr : List Call) :
    Option Parsed × Db × List Call :=
  (none, upsertUsageHistory db (zeroInput ctx planLimit), tr)

/-- Step 4 of `fetchAndStoreUsage`: the `shouldScanOrgs` branch — fetch the
org list when empty (persisting it), run the org scan, else fall through to
the zero-usage persist. -/
def fetchOrgScan (net : Network) (ctx : FetchCtx) (planLimit : ℚ) (billingOrg : String)
    (allOrgs : List String) (db : Db) (tr : List Call) : Option Parsed × Db × List Call :=
  if billingOrg ≠ "" || ctx.plan == "business" || ctx.plan == "enterprise" then
    let st :=
      if allOrgs.isEmpty then
        let fetched := net.userOrgList
        if fetched.length > 0 then
          (fetched,
           updateAccount db ctx.accountId
             (fun a => { a with github_orgs := joinComma fetched }),
           tr ++ [Call.userOrgs])
        else ([], db, tr ++ [Call.userOrgs])
      else (allOrgs, db, tr)
    match orgScanLoop net ctx planLimit billingOrg st.1 st.2.1 st.2.2 with
    | (some parsed, db1, tr1) => (some parsed, db1, tr1)
    | (none, db1, tr1) => fetchZeroFallback ctx planLimit db1 tr1
  else fetchZeroFallback ctx planLimit db tr

/-- Step 3 of `fetchAndStoreUsage`: the user-level general billing endpoint. -/
def fetchUserBilling (net : Network) (ctx : FetchCtx) (planLimit : ℚ) (billingOrg : String)
    (allOrgs : List String) (db : Db) (tr : List Call) : Option Parsed × Db × List Call :=
  let tr' := tr ++ [Call.userBilling]
  match net.userBillingUsage with
  | Except.ok data =>
    let parsed := parseUsageData data planLimit
    if parsed.grossQuantity > 0 then
      (some parsed, saveUsage ctx planLimit parsed db, tr')
    else fetchOrgScan net ctx planLimit billingOrg allOrgs db tr'
  | Except.error _ => fetchOrgScan net ctx planLimit billingOrg allOrgs db tr'

/-- Step 2 of `fetchAndStoreUsage`: the user-level premium-request endpoint. -/
def fetchUserPremium (net : Network) (ctx : FetchCtx) (planLimit : ℚ) (billingOrg : String)
    (allOrgs : List String) (db : Db) (tr : List Call) : Option Parsed × Db × List Call :=
  let tr' := tr ++ [Call.userPremium]
  match net.userPremiumUsage with
  | Except.ok data =>
    let parsed := parseUsageData data planLimit
    if parsed.grossQuantity > 0 then
      (some parsed, saveUsage ctx planLimit parsed db, tr')
    else fetchUserBilling net ctx planLimit billingOrg allOrgs db tr'
  | Except.error _ => fetchUserBilling net ctx planLimit billingOrg allOrgs db tr'

/-- `fetchAndStoreUsage(accountId, username, pat, plan, billingOrg)`: the
whole Copilot fallback chain; yields the value the source returns (`none` =
`undefined`), the final database, and the ordered trace of endpoint calls. -/
def fetchAndStoreUsage (net : Network) (accountId : Nat)
    (username plan billingOrgParam : String) (year month : Nat) (db : Db) :
    Option Parsed × Db × List Call :=
  let planLimit := planLimitOf plan
  let ctx : FetchCtx := ⟨accountId, username, plan, year, month⟩
  let account := getAccountById db accountId
  let billingOrg :=
    if billingOrgParam ≠ "" then billingOrgParam
    else
      match account with
      | some a => a.billing_org
      | none => ""
  let allOrgs :=
    match account with
    | some a => splitOrgs a.github_orgs
    | none => []
  if billingOrg ≠ "" then
    match tryOrgEndpoints net ctx planLimit billingOrg db [] with
    | (some parsed, db1, tr1) => (some parsed, db1, tr1)
    | (none, db1, tr1) => fetchUserPremium net ctx planLimit billingOrg allOrgs db1 tr1
  else fetchUserPremium net ctx planLimit billingOrg allOrgs db []

/-! ### Claude fetchers, Copilot activity, and `refreshAccount` -/

/-- `fetchAndStoreClaudeUsage(accountId, adminKey, userEmail, budget)`; the
`getClaudeCodeMonthUsage` + `parseClaudeCodeData` month scan is the
`claudeMonth` oracle (its result shape is `ClaudeParsed`); a thrown error is
caught and logged. -/
def fetchAndStoreClaudeUsage (net : Network) (accountId : Nat) (userEmail : String)
    (budget : ℚ) (year month : Nat) (db : Db) : Db × List Call :=
  match net.claudeMonth with
  | Except.ok parsed =>
    let percentage := if budget > 0 then qMul (qDiv parsed.totalCostUSD budget) 100 else 0
    let db1 := upsertUsageHistory db
      { account_id := accountId, year := year, month := month,
        gross_quantity := parsed.totalCostUSD, included_quantity := 0,
        net_amount := parsed.totalCostUSD, plan_limit := budget,
        percentage := qDiv (jsRound (qMul percentage 10) : ℚ) 10,
        sessions := some parsed.sessions, lines_added := some parsed.linesAdded,
        lines_removed := some parsed.linesRemoved, commits := some parsed.commits,
        pull_requests := some parsed.pullRequests }
    let db2 :=
      match getLatestUsage db1 accountId with
      | some usage =>
        if parsed.models.length > 0 then
          let dbc := clearUsageDetails db1 usage.id
          parsed.models.foldl
            (fun d m => insertUsageDetail d
              { history_id := usage.id, model := m.model,
                quantity := ((m.input_tokens + m.output_tokens : Nat) : ℚ),
                price_per_unit := 0, net_amount := qDiv m.estimated_cost_cents 100,
                input_tokens := some m.input_tokens,
                output_tokens := some m.output_tokens,
                cache_read_tokens := some m.cache_read_tokens,
                cache_creation_tokens := some m.cache_creation_tokens }) dbc
        else db1
      | none => db1
    (db2, [Call.claudeMonth])
  | Except.error _ => (db, [Call.claudeMonth])

/-- `fetchAndStoreClaudeWebUsage(accountId, accessToken)`; `getClaudeWebUsage`
is the `claudeWeb` oracle; a thrown error is caught and logged. -/
def fetchAndStoreClaudeWebUsage (net : Network) (accountId : Nat) (year month : Nat)
    (db : Db) : Db × List Call :=
  match net.claudeWeb with
  | Except.ok data =>
    (upsertUsageHistory db
      { account_id := accountId, year := year, month := month,
        gross_quantity := 0, included_quantity := 0,
        net_amount := data.extraUsageSpent, plan_limit := 0,
        percentage := data.weeklyUsagePct,
        sessions := some 0, lines_added := some 0, lines_removed := some 0,
        commits := some 0, pull_requests := some 0,
        session_usage_pct := some data.sessionUsagePct,
        weekly_usage_pct := some data.weeklyUsagePct,
        weekly_reset_at := some (data.weeklyResetAt.getD ""),
        extra_usage_enabled := some data.extraUsageEnabled,
        extra_usage_spent := some data.extraUsageSpent,
        extra_usage_limit := some data.extraUsageLimit,
        extra_usage_balance := some data.extraUsageBalance,
        extra_usage_reset_at := some "" }, [Call.claudeWeb])
  | Except.error _ => (db, [Call.claudeWeb])

/-- The per-org loop of `fetchCopilotActivity`: first org with a non-empty
seat activity wins and is stored on the account; failures continue. -/
def activityLoop (net : Network) (accountId : Nat) :
    List String → Db → List Call → Db × List Call
  | [], db, tr => (db, tr)
  | org :: rest, db, tr =>
    let tr' := tr ++ [Call.seatActivity org]
    match net.seatActivity org with
    | Except.ok (some a) =>
      if a.last_activity_at != "" || a.last_activity_editor != "" then
        (updateAccount db accountId
          (fun acc => { acc with last_activity_at := a.last_activity_at,
                                 last_activity_editor := a.last_activity_editor }), tr')
      else activityLoop net accountId rest db tr'
    | Except.ok none => activityLoop net accountId rest db tr'
    | Except.error _ => activityLoop net accountId rest db tr'

/-- `fetchCopilotActivity(accountId, pat, username, billingOrg, allOrgs)`. -/
def fetchCopilotActivity (net : Network) (accountId : Nat) (billingOrg : String)
    (allOrgs : List String) (db : Db) (tr : List Call) : Db × List Call :=
  let orgsToTry := (if billingOrg ≠ "" then [billingOrg] else []) ++
    allOrgs.filter (fun o => o != billingOrg)
  activityLoop net accountId orgsToTry db tr

/-- The string-typed credential vault as called by the route layer
(`decrypt` / `encrypt` of `src/services/crypto.js`). -/
structure Vault where
  dec : String → String
  enc : String → String

/-- The outcome of a `refreshAccount` run: final database, ordered trace of
network calls, and `err` for an exception propagated to the caller. -/
structure RefreshOut where
  db : Db
  trace : List Call
  err : Option String
  deriving Repr

/-- `refreshAccount(acc)`: the shared single-account refresh.  An empty or
undecryptable `pat_token` returns at once; `claude_code` and `claude_web`
dispatch to their fetchers (the latter rotating tokens via `getValidToken`
first); everything else is the Copilot path: best-effort GitHub profile
update, single-org `billing_org` auto-detection, org-list refresh,
`fetchAndStoreUsage`, and, for org-managed accounts, the seat-activity
fetch. -/
def refreshAccount (vault : Vault) (net : Network) (now : Int) (year month : Nat)
    (acc : AccountRow) (db : Db) : RefreshOut :=
  let key := vault.dec acc.pat_token
  if key = "" then ⟨db, [], none⟩
  else if acc.account_type = "claude_code" then
    let budget := jsOr (some acc.monthly_budget) (jsOr (claudeBudgetOf acc.claude_plan) 100)
    let r := fetchAndStoreClaudeUsage net acc.id acc.claude_user_email budget year month db
    ⟨r.1, r.2, none⟩
  else if acc.account_type = "claude_web" then
    let rt := if acc.claude_cf_clearance ≠ "" then vault.dec acc.claude_cf_clearance else ""
    let exchTrace :=
      if needsRefresh now acc.claude_token_expires_at && rt != "" then
        [Call.tokenExchange]
      else []
    match getValidToken net.tokenExchange now key rt acc.claude_token_expires_at with
    | Except.error e => ⟨db, exchTrace, some e⟩
    | Except.ok tkn =>
      let db1 :=
        if tkn.refreshed then
          updateAccount db acc.id (fun a =>
            { a with pat_token := vault.enc tkn.accessToken,
                     claude_cf_clearance := vault.enc tkn.refreshToken,
                     claude_token_expires_at := tkn.expiresAt })
        else db
      let r := fetchAndStoreClaudeWebUsage net acc.id year month db1
      ⟨r.1, exchTrace ++ r.2, none⟩
  else
    let st1 :=
      match net.ghUser with
      | Except.ok u =>
        updateAccount db acc.id (fun a =>
          { a with github_username := u.login,
                   display_name := jsOrS u.name u.login,
                   avatar_url := u.avatar_url })
      | Except.error _ => db
    let orgsIfMissing := if acc.billing_org = "" then splitOrgs acc.github_orgs else []
    let autoDetect := acc.billing_org = "" && orgsIfMissing.length == 1
    let billingOrg := if autoDetect then orgsIfMissing.headD "" else acc.billing_org
    let st2 :=
      if autoDetect then
        updateAccount st1 acc.id (fun a => { a with billing_org := billingOrg })
      else st1
    let st3 := updateAccount st2 acc.id
      (fun a => { a with github_orgs := joinComma net.userOrgList })
    let tr3 := [Call.ghUser, Call.userOrgs]
    let r := fetchAndStoreUsage net acc.id acc.github_username acc.copilot_plan billingOrg
      year month st3
    let allOrgs := splitOrgs acc.github_orgs
    if billingOrg ≠ "" || allOrgs.length > 0 then
      let ra := fetchCopilotActivity net acc.id billingOrg allOrgs r.2.1 (tr3 ++ r.2.2)
      ⟨ra.1, ra.2, none⟩
    else ⟨r.2.1, tr3 ++ r.2.2, none⟩

/-! ### RateLimiter: the mutation middleware of the API routes -/

def RATE_LIMIT_WINDOW : Int := 60000

def RATE_LIMIT_MAX : Nat := 30

structure RLEntry where
  start : Int
  count : Nat
  deriving DecidableEq, Repr

/-- `rateLimitMap.set(key, e)` on the assoc-list model of the `Map`. -/
def rlSet (m : List (String × RLEntry)) (key : String) (e : RLEntry) :
    List (String × RLEntry) :=
  if m.any (fun p => p.1 == key) then
    m.map (fun p => if p.1 == key then (key, e) else p)
  else m ++ [(key, e)]

/-- `rateLimit(c, key)`: `true` means the request is blocked; also yields the
updated counter map (a fresh window on a missing or expired entry, otherwise
an increment checked against the threshold). -/
def rateLimit (now : Int) (m : List (String × RLEntry)) (key : String) :
    Bool × List (String × RLEntry) :=
  match m.lookup key with
  | none => (false, rlSet m key ⟨now, 1⟩)
  | some e =>
    if now - e.start > RATE_LIMIT_WINDOW then (false, rlSet m key ⟨now, 1⟩)
    else
      let e' : RLEntry := ⟨e.start, e.count + 1⟩
      if e'.count > RATE_LIMIT_MAX then (true, rlSet m key e')
      else (false, rlSet m key e')

structure Req where
  method : String
  xForwardedFor : Option String := none
  xRealIp : Option String := none
  deriving DecidableEq, Repr

/-- The client-IP fallback chain of the middleware:
`forwarded ? forwarded.split(',')[0].trim() : realIp || "unknown"`. -/
def clientIp (r : Req) : String :=
  if jsOrS r.xForwardedFor "" ≠ "" then
    jsTrim ((jsSplit ',' (jsOrS r.xForwardedFor "")).headD "")
  else jsOrS r.xRealIp "unknown"

/-- One request through the `api.use` middleware: the updated map and whether
the downstream handler ran (GET passes through; a blocked request returns 429
without invoking the handler). -/
def middlewareStep (now : Int) (m : List (String × RLEntry)) (r : Req) :
    List (String × RLEntry) × Bool :=
  if r.method = "GET" then (m, true)
  else
    let res := rateLimit now m (clientIp r)
    if res.1 then (res.2, false) else (res.2, true)

/-- A sequence of timestamped requests through the middleware, collecting
whether each one reached its handler. -/
def middlewareRun (reqs : List (Int × Req)) (m : List (String × RLEntry)) :
    List (String × RLEntry) × List Bool :=
  reqs.foldl (fun acc r =>
    let s := middlewareStep r.1 acc.1 r.2
    (s.1, acc.2 ++ [s.2])) (m, [])

/-- A network on which every billing endpoint call fails (transient HTTP
errors everywhere). -/
def cNetErr : Network :=
  { orgPremiumUsage := fun _ _ => Except.error ()
    orgBillingUsage := fun _ => Except.error ()
    userPremiumUsage := Except.error ()
    userBillingUsage := Except.error ()
    userOrgList := []
    ghUser := Except.error ()
    seatActivity := fun _ => Except.error ()
    claudeMonth := Except.error ()
    claudeWeb := Except.error ()
    tokenExchange := Except.error "" }

def c2d0 : UsageData :=
  { usageItems := some [{ product := "copilot", quantity := some 0 }] }

def c2item : UsageItem :=
  { product := "Copilot", quantity := some 60, netAmount := some 3,
    model := some "gpt-5" }

def c2d1 : UsageData := { usageItems := some [c2item] }

def c2net : Network :=
  { cNetErr with
    orgPremiumUsage := fun _ u =>
      if u.isSome then Except.ok c2d0 else Except.ok c2d1 }

def c2db : Db :=
  { accounts := [{ id := 1, github_username := "alice", billing_org := "acme" }],
    now := 9 }

def c1db : Db :=
  { accounts := [{ id := 1, github_username := "alice" }],
    history := [{ id := 1, account_id := 1, year := 2025, month := 10,
                  gross_quantity := 42 }],
    nextHistoryId := 2, now := 7 }

def c3dB : UsageData :=
  { usageItems := some [{ product := "copilot", quantity := some 50 }] }

def c3net : Network :=
  { cNetErr with
    orgPremiumUsage := fun o u =>
      if o = "B" && u.isNone then Except.ok c3dB else Except.error () }

def c3accX : AccountRow :=
  { id := 1, github_username := "alice", billing_org := "X", github_orgs := "X,B" }

def c3dbx : Db := { accounts := [c3accX], now := 9 }

def c3acc : AccountRow :=
  { id := 1, github_username := "alice", copilot_plan := "business", github_orgs := "A,B" }

def c3db : Db := { accounts := [c3acc], now := 9 }

/-- The detail rows inserted by `saveUsage` from a parsed breakdown, starting
at a given autoincrement id. -/
def mkDetailRows (hid : Nat) : Nat → List ModelItem → List DetailRow
  | _, [] => []
  | nid, m :: ms =>
    { id := nid, history_id := hid, model := m.model, quantity := m.quantity,
      price_per_unit := m.price_per_unit, net_amount := m.net_amount } ::
      mkDetailRows hid (nid + 1) ms

def c4item : UsageItem := { product := "copilot", quantity := some 7 }

def c4net : Network :=
  { cNetErr with userBillingUsage := Except.ok { usageItems := some [c4item] } }

def c4hist : HistoryRow :=
  { id := 1, account_id := 1, year := 2025, month := 10, gross_quantity := 5 }

def c4det : DetailRow := { id := 1, history_id := 1, model := "gpt-4o" }

def c4db : Db :=
  { accounts := [{ id := 1, github_username := "alice" }],
    history := [c4hist], details := [c4det],
    nextHistoryId := 2, nextDetailId := 2, now := 7 }

def c4parsed : Parsed := parseUsageData c2d1 (planLimitOf "pro")

def c4wdb : Db := { now := 3 }

def c4u : HistoryRow :=
  applyVals (saveInput ⟨1, "u", "pro", 2025, 10⟩ (planLimitOf "pro") c4parsed) 3 1

def c9vault : Vault := ⟨fun _ => "", fun s => s⟩

/-! ### C10: the rate-limit middleware -/

def mutReq : Req := { method := "POST" }

def mutReqs (n : Nat) : List (Int × Req) :=
  (List.range n).map (fun i => ((i : Int), mutReq))

theorem qAdd_eq (a b : ℚ) : qAdd a b = a + b := (Rat.add_def' a b).symm

theorem qMul_eq (a b : ℚ) : qMul a b = a * b := by
  rw [qMul, Rat.mul_def, Rat.normalize_eq_mkRat]

theorem qInv_eq (b : ℚ) : qInv b = b⁻¹ := by
  show qInv b = b.inv
  rw [Rat.inv_def, qInv]
  split
  · rename_i h
    rw [Rat.mkRat_eq_divInt, Int.toNat_of_nonneg h]
  · rename_i h
    rw [Rat.mkRat_eq_divInt, Int.toNat_of_nonneg (by omega), Rat.neg_divInt_neg]

theorem qDiv_eq (a b : ℚ) : qDiv a b = a / b := by
  rw [qDiv, qMul_eq, qInv_eq, div_eq_mul_inv]

theorem jsRound_eq (x : ℚ) : jsRound x = ⌊x + 1/2⌋ := by
  have hm : (mkRat 1 2 : ℚ) = 1/2 := by
    rw [Rat.mkRat_eq_divInt, Rat.divInt_eq_div]
    norm_num
  rw [jsRound, qAdd_eq, hm, Rat.floor_def]
  exact Int.fdiv_eq_ediv _ (by positivity)

/-! ### Hex and split lemmas -/

theorem hexVal_hexChar : ∀ n : Fin 16, hexVal (hexChar n.val) = some n := by decide

theorem hexChar_ne_colon : ∀ n : Fin 16, hexChar n.val ≠ ':' := by decide

theorem hexVal_eq_some {c : Char} {v : Fin 16} (h : hexVal c = some v) :
    c = hexChar v.val := by
  by_cases hlt : hexAlphabet.indexOf c < 16
  · have hv : hexVal c = some ⟨hexAlphabet.indexOf c, hlt⟩ := by
      simp [hexVal, hlt]
    rw [hv] at h
    obtain rfl : (⟨hexAlphabet.indexOf c, hlt⟩ : Fin 16) = v := Option.some_inj.mp h
    simp only [hexChar]
    rw [List.getD_eq_getElem hexAlphabet '0' hlt]
    exact (List.getElem_indexOf hlt).symm
  · have hv : hexVal c = none := by simp [hexVal, hlt]
    rw [hv] at h
    cases h

theorem hexDecode_hexEncode : ∀ bs : List Byte, hexDecode (hexEncode bs) = some bs
  | [] => rfl
  | b :: bs => by
    have hb := b.isLt
    have h1 := hexVal_hexChar ⟨b.val / 16, by omega⟩
    have h2 := hexVal_hexChar ⟨b.val % 16, by omega⟩
    have ih := hexDecode_hexEncode bs
    simp only [hexEncode, hexDecode, h1, h2, ih]
    congr 2
    exact Fin.ext (by simp; omega)

theorem colon_not_mem_hexEncode : ∀ bs : List Byte, ':' ∉ hexEncode bs
  | [] => by simp [hexEncode]
  | b :: bs => by
    have hb := b.isLt
    have h1 := hexChar_ne_colon ⟨b.val / 16, by omega⟩
    have h2 := hexChar_ne_colon ⟨b.val % 16, by omega⟩
    have ih := colon_not_mem_hexEncode bs
    simp only [hexEncode, List.mem_cons, not_or]
    exact ⟨fun e => h1 e.symm, fun e => h2 e.symm, ih⟩

theorem splitColon_no_colon : ∀ l : List Char, ':' ∉ l → splitColon l = [l]
  | [], _ => rfl
  | c :: rest, h => by
    have hc : ¬(c = ':') := fun e => h (e ▸ List.mem_cons_self c rest)
    have hr := splitColon_no_colon rest (fun m => h (List.mem_cons_of_mem _ m))
    simp [splitColon, hr, hc]

theorem splitColon_append (a rest : List Char) (h : ':' ∉ a) :
    splitColon (a ++ ':' :: rest) = a :: splitColon rest := by
  induction a with
  | nil => simp [splitColon]
  | cons c t ih =>
    have hc : ¬(c = ':') := fun e => h (e ▸ List.mem_cons_self c t)
    have ht := ih (fun m => h (List.mem_cons_of_mem _ m))
    simp [splitColon, ht, hc]

theorem splitColon_token (a b c : List Char) (ha : ':' ∉ a) (hb : ':' ∉ b) (hc : ':' ∉ c) :
    splitColon (a ++ ':' :: (b ++ ':' :: c)) = [a, b, c] := by
  rw [splitColon_append a _ ha, splitColon_append b _ hb, splitColon_no_colon c hc]

theorem decryptBody_token (g : GcmModel) (key : Nat) (ivh th cth : List Char)
    (hiv : ':' ∉ ivh) (ht : ':' ∉ th) (hct : ':' ∉ cth)
    (iv tag ct : List Byte)
    (div : hexDecode ivh = some iv) (dtag : hexDecode th = some tag)
    (dct : hexDecode cth = some ct) :
    decryptBody g key (ivh ++ ':' :: (th ++ ':' :: cth)) =
      if g.mac key iv ct = tag then Except.ok (g.decCore key iv ct)
      else Except.error () := by
  simp only [decryptBody, splitColon_token ivh th cth hiv ht hct, req, List.get?,
    bind, Except.bind, div, dtag, dct]

/-- C5: for every non-empty plaintext `s`, `decrypt (encrypt s) = s` under
the same process-wide key (given the core inversion property of the AES-GCM
library primitive), and both directions are a no-op on the empty string. -/
theorem crypto_roundtrip (g : GcmModel) (key : Nat) (iv s : List Byte)
    (hs : s ≠ [])
    (hinv : g.decCore key iv (g.encCore key iv s) = s) :
    decrypt g key (encrypt g key iv s) = s ∧
      encrypt g key iv [] = [] ∧ decrypt g key [] = [] := by
  refine ⟨?_, rfl, rfl⟩
  have henc : encrypt g key iv s =
      hexEncode iv ++ ':' :: (hexEncode (g.mac key iv (g.encCore key iv s)) ++
        ':' :: hexEncode (g.encCore key iv s)) := by
    simp [encrypt, hs]
  rw [decrypt, if_neg (by simp [henc]), henc,
    decryptBody_token g key _ _ _ (colon_not_mem_hexEncode iv)
      (colon_not_mem_hexEncode _) (colon_not_mem_hexEncode _)
      iv (g.mac key iv (g.encCore key iv s)) (g.encCore key iv s)
      (hexDecode_hexEncode iv) (hexDecode_hexEncode _) (hexDecode_hexEncode _),
    if_pos rfl]
  exact hinv

/-- Witness for C5 at a concrete cipher model, key, IV and plaintext. -/
theorem crypto_roundtrip_witness :
    decrypt toyGcm 0 (encrypt toyGcm 0 [11] [7]) = [7] ∧
      encrypt toyGcm 0 [11] [] = [] ∧ decrypt toyGcm 0 [] = [] :=
  crypto_roundtrip toyGcm 0 [11] [7] (by decide) rfl

theorem hexEncode_length : ∀ bs : List Byte, (hexEncode bs).length = 2 * bs.length
  | [] => rfl
  | _ :: bs => by simp [hexEncode, hexEncode_length bs]; omega

theorem hexVal_isSome_of_mem_hexEncode :
    ∀ bs : List Byte, ∀ c ∈ hexEncode bs, hexVal c ≠ none
  | [], c, hc => by simp [hexEncode] at hc
  | b :: bs, c, hc => by
    have hb := b.isLt
    simp only [hexEncode, List.mem_cons] at hc
    rcases hc with rfl | rfl | hc
    · rw [hexVal_hexChar ⟨b.val / 16, by omega⟩]; simp
    · rw [hexVal_hexChar ⟨b.val % 16, by omega⟩]; simp
    · exact hexVal_isSome_of_mem_hexEncode bs c hc

theorem hexDecode_isSome :
    ∀ l : List Char, (∀ c ∈ l, hexVal c ≠ none) → l.length % 2 = 0 →
      ∃ b, hexDecode l = some b
  | [], _, _ => ⟨[], rfl⟩
  | [c], _, hl => by simp at hl
  | c1 :: c2 :: rest, hv, hl => by
    obtain ⟨v1, h1⟩ := Option.ne_none_iff_exists'.mp (hv c1 (by simp))
    obtain ⟨v2, h2⟩ := Option.ne_none_iff_exists'.mp (hv c2 (by simp))
    obtain ⟨bs, hbs⟩ := hexDecode_isSome rest
      (fun c hc => hv c (by simp [hc])) (by simp at hl; omega)
    refine ⟨⟨v1.val * 16 + v2.val, by have := v1.isLt; have := v2.isLt; omega⟩ :: bs, ?_⟩
    simp [hexDecode, h1, h2, hbs]

theorem eq_hexEncode_of_hexDecode :
    ∀ l : List Char, ∀ b : List Byte, hexDecode l = some b → l = hexEncode b
  | [], b, h => by
    obtain rfl : ([] : List Byte) = b := Option.some_inj.mp h
    rfl
  | [c], b, h => by simp [hexDecode] at h
  | c1 :: c2 :: rest, b, h => by
    simp only [hexDecode] at h
    split at h
    · rename_i v1 v2 bs h1 h2 hbs
      obtain rfl := Option.some_inj.mp h
      have e1 := hexVal_eq_some h1
      have e2 := hexVal_eq_some h2
      have ih := eq_hexEncode_of_hexDecode rest bs hbs
      have hv1 := v1.isLt
      have hv2 := v2.isLt
      simp only [hexEncode]
      refine List.cons_eq_cons.mpr ⟨?_, List.cons_eq_cons.mpr ⟨?_, ih⟩⟩
      · rw [e1]; congr 1; omega
      · rw [e2]; congr 1; omega
    · cases h

theorem set_ne_self {l : List Char} {i : Nat} {c : Char} (hi : i < l.length)
    (h : c ≠ l.get ⟨i, hi⟩) : l.set i c ≠ l := by
  intro e
  apply h
  have h2 : (l.set i c).getD i ' ' = l.getD i ' ' := by rw [e]
  rw [List.getD_eq_getElem _ ' ' (by rw [List.length_set]; exact hi),
    List.getD_eq_getElem _ ' ' hi] at h2
  rw [List.getElem_set_self (by rw [List.length_set]; exact hi)] at h2
  rw [List.get_eq_getElem]
  exact h2

/-- C6: for every non-empty plaintext, replacing any single hex character of
the tag segment, or of the ciphertext segment, of `encrypt s` by a different
hex character makes `decrypt` of the altered token return the empty string
(given that the GCM tag determines the ciphertext for a fixed key and IV),
and every input on which the decryption body fails is mapped to the empty
string rather than an exception. -/
theorem crypto_tamper (g : GcmModel) (key : Nat) (iv s : List Byte) (hs : s ≠ [])
    (hmac : ∀ c1 c2 : List Byte, c1.length = c2.length →
      g.mac key iv c1 = g.mac key iv c2 → c1 = c2) :
    (∀ i c', ∀ hi : i < (hexEncode (g.mac key iv (g.encCore key iv s))).length,
      hexVal c' ≠ none →
      c' ≠ (hexEncode (g.mac key iv (g.encCore key iv s))).get ⟨i, hi⟩ →
      decrypt g key
        (hexEncode iv ++ ':' ::
          ((hexEncode (g.mac key iv (g.encCore key iv s))).set i c' ++
            ':' :: hexEncode (g.encCore key iv s))) = []) ∧
    (∀ i c', ∀ hi : i < (hexEncode (g.encCore key iv s)).length,
      hexVal c' ≠ none →
      c' ≠ (hexEncode (g.encCore key iv s)).get ⟨i, hi⟩ →
      decrypt g key
        (hexEncode iv ++ ':' ::
          (hexEncode (g.mac key iv (g.encCore key iv s)) ++
            ':' :: (hexEncode (g.encCore key iv s)).set i c')) = []) ∧
    (∀ data : List Char, (∀ b, decryptBody g key data ≠ Except.ok b) →
      decrypt g key data = []) := by
  set ct := g.encCore key iv s with hct
  set tag := g.mac key iv ct with htag
  refine ⟨?_, ?_, ?_⟩
  · intro i c' hi hc' hne
    set l' := (hexEncode tag).set i c' with hl'
    have hvc' : ∀ c ∈ l', hexVal c ≠ none := by
      intro c hc
      rcases List.mem_or_eq_of_mem_set hc with h | rfl
      · exact hexVal_isSome_of_mem_hexEncode tag c h
      · exact hc'
    have hcol : ':' ∉ l' := by
      intro h
      rcases List.mem_or_eq_of_mem_set h with h | h
      · exact colon_not_mem_hexEncode tag h
      · rw [← h] at hc'; exact hc' rfl
    have hlen : l'.length % 2 = 0 := by
      rw [hl', List.length_set, hexEncode_length]; omega
    obtain ⟨tag', hdec⟩ := hexDecode_isSome l' hvc' hlen
    have hne' : tag' ≠ tag := by
      intro h
      have heq := eq_hexEncode_of_hexDecode l' tag' hdec
      rw [h] at heq
      exact set_ne_self hi hne heq
    rw [decrypt, if_neg (by simp),
      decryptBody_token g key _ _ _ (colon_not_mem_hexEncode iv) hcol
        (colon_not_mem_hexEncode ct) iv tag' ct (hexDecode_hexEncode iv) hdec
        (hexDecode_hexEncode ct),
      if_neg (fun h => hne' h.symm)]
  · intro i c' hi hc' hne
    set l' := (hexEncode ct).set i c' with hl'
    have hvc' : ∀ c ∈ l', hexVal c ≠ none := by
      intro c hc
      rcases List.mem_or_eq_of_mem_set hc with h | rfl
      · exact hexVal_isSome_of_mem_hexEncode ct c h
      · exact hc'
    have hcol : ':' ∉ l' := by
      intro h
      rcases List.mem_or_eq_of_mem_set h with h | h
      · exact colon_not_mem_hexEncode ct h
      · rw [← h] at hc'; exact hc' rfl
    have hlen : l'.length % 2 = 0 := by
      rw [hl', List.length_set, hexEncode_length]; omega
    obtain ⟨ct', hdec⟩ := hexDecode_isSome l' hvc' hlen
    have hctlen : ct'.length = ct.length := by
      have h1 := eq_hexEncode_of_hexDecode l' ct' hdec
      have : l'.length = (hexEncode ct').length := by rw [h1]
      rw [hl', List.length_set, hexEncode_length, hexEncode_length] at this
      omega
    have hne' : ct' ≠ ct := by
      intro h
      have heq := eq_hexEncode_of_hexDecode l' ct' hdec
      rw [h] at heq
      exact set_ne_self hi hne heq
    rw [decrypt, if_neg (by simp),
      decryptBody_token g key _ _ _ (colon_not_mem_hexEncode iv)
        (colon_not_mem_hexEncode tag) hcol iv tag ct' (hexDecode_hexEncode iv)
        (hexDecode_hexEncode tag) hdec,
      if_neg (fun h => hne' (hmac ct' ct hctlen (h.trans htag.symm)))]
  · intro data hfail
    rw [decrypt]
    split
    · rfl
    · cases hb : decryptBody g key data with
      | ok b => exact absurd hb (hfail b)
      | error e => rfl

/-- Witness for C6: a concrete flipped-tag token, a concrete flipped-ciphertext
token, and a concrete failing input, all mapped to the empty string. -/
theorem crypto_tamper_witness :
    decrypt toyGcm 0
        (hexEncode [11] ++ ':' ::
          ((hexEncode (toyGcm.mac 0 [11] (toyGcm.encCore 0 [11] [7]))).set 0 'f' ++
            ':' :: hexEncode (toyGcm.encCore 0 [11] [7]))) = [] ∧
      decrypt toyGcm 0
        (hexEncode [11] ++ ':' ::
          (hexEncode (toyGcm.mac 0 [11] (toyGcm.encCore 0 [11] [7])) ++
            ':' :: (hexEncode (toyGcm.encCore 0 [11] [7])).set 0 'f')) = [] ∧
      decrypt toyGcm 0 ['x'] = [] := by
  have h := crypto_tamper toyGcm 0 [11] [7] (by decide)
    (fun c1 c2 _ h => h)
  refine ⟨h.1 0 'f' (by decide) (by decide) (by decide),
    h.2.1 0 'f' (by decide) (by decide) (by decide),
    h.2.2 ['x'] (fun b hb => by
      simp [show decryptBody toyGcm 0 ['x'] = Except.error () from rfl] at hb)⟩

/-! ### Upsert lemmas -/

theorem sameKey_applyVals (v : UpsertInput) (now id : Nat) :
    sameKey v (applyVals v now id) = true := by
  simp [sameKey, applyVals]

theorem applyVals_id (v : UpsertInput) (now id : Nat) :
    (applyVals v now id).id = id := rfl

theorem upsert_now (db : Db) (v : UpsertInput) :
    (upsertUsageHistory db v).now = db.now := by
  unfold upsertUsageHistory; split <;> rfl

theorem upsert_accounts (db : Db) (v : UpsertInput) :
    (upsertUsageHistory db v).accounts = db.accounts := by
  unfold upsertUsageHistory; split <;> rfl

theorem upsert_details (db : Db) (v : UpsertInput) :
    (upsertUsageHistory db v).details = db.details := by
  unfold upsertUsageHistory; split <;> rfl

theorem filter_map_key (l : List HistoryRow) (v : UpsertInput) (now : Nat) :
    (l.map (fun r => if sameKey v r then applyVals v now r.id else r)).filter (sameKey v)
      = (l.filter (sameKey v)).map (fun r => applyVals v now r.id) := by
  induction l with
  | nil => rfl
  | cons a t ih =>
    by_cases ha : sameKey v a
    · simp only [List.map_cons, List.filter_cons, ha, if_pos,
        sameKey_applyVals, if_true]
      rw [ih]
    · simp only [List.map_cons, List.filter_cons, ha, if_neg, Bool.false_eq_true,
        if_false]
      rw [ih]

theorem filter_upsert (db : Db) (v : UpsertInput) :
    (upsertUsageHistory db v).history.filter (sameKey v) =
      if db.history.any (sameKey v) then
        (db.history.filter (sameKey v)).map (fun r => applyVals v db.now r.id)
      else [applyVals v db.now db.nextHistoryId] := by
  unfold upsertUsageHistory
  split
  · rename_i h
    simp only [h, if_true]
    exact filter_map_key db.history v db.now
  · rename_i h
    simp only [h, if_false]
    rw [List.filter_append]
    have : db.history.filter (sameKey v) = [] := by
      rw [List.filter_eq_nil_iff]
      intro a ha hk
      exact h (List.any_eq_true.mpr ⟨a, ha, hk⟩)
    rw [this]
    simp [sameKey_applyVals]

theorem any_of_filter_singleton {l : List HistoryRow} {p : HistoryRow → Bool}
    {r : HistoryRow} (h : l.filter p = [r]) : l.any p = true := by
  rcases List.of_mem_filter (p := p) (h ▸ List.mem_cons_self r []) with hp
  rcases List.mem_of_mem_filter (p := p) (h ▸ List.mem_cons_self r []) with hm
  exact List.any_eq_true.mpr ⟨r, hm, hp⟩

/-- C8: persisting usage twice with identical (account_id, year, month) leaves
exactly one UsageHistory row for that key, holding the second call's values —
the refresh is an upsert on the unique key, never an append. -/
theorem upsert_idempotent (db : Db) (v1 v2 : UpsertInput)
    (hkey : v2.account_id = v1.account_id ∧ v2.year = v1.year ∧ v2.month = v1.month)
    (huniq : (db.history.filter (sameKey v2)).length ≤ 1) :
    ∃ id, (upsertUsageHistory (upsertUsageHistory db v1) v2).history.filter (sameKey v2)
            = [applyVals v2 db.now id] := by
  obtain ⟨h1, h2, h3⟩ := hkey
  have hsame : sameKey v2 = sameKey v1 := by
    funext r; simp [sameKey, h1, h2, h3]
  set db1 := upsertUsageHistory db v1 with hdb1
  by_cases hany : db.history.any (sameKey v1)
  · have hfilt1 : db1.history.filter (sameKey v1) =
        (db.history.filter (sameKey v1)).map (fun r => applyVals v1 db.now r.id) := by
      rw [hdb1, filter_upsert, if_pos hany]
    have hne : db.history.filter (sameKey v1) ≠ [] := by
      intro he
      rw [List.filter_eq_nil_iff] at he
      rcases List.any_eq_true.mp hany with ⟨a, ha, hk⟩
      exact he a ha hk
    obtain ⟨r0, hr0⟩ : ∃ r0, db.history.filter (sameKey v1) = [r0] := by
      rw [hsame] at huniq
      cases hc : db.history.filter (sameKey v1) with
      | nil => exact absurd hc hne
      | cons a t =>
        cases t with
        | nil => exact ⟨a, rfl⟩
        | cons b t2 => rw [hc] at huniq; simp at huniq
    have hfilt1' : db1.history.filter (sameKey v1) = [applyVals v1 db.now r0.id] := by
      rw [hfilt1, hr0]; rfl
    have hany2 : db1.history.any (sameKey v2) = true := by
      rw [hsame]; exact any_of_filter_singleton hfilt1'
    refine ⟨r0.id, ?_⟩
    rw [filter_upsert, if_pos hany2, hsame, hfilt1', upsert_now]
    rfl
  · have hfilt1 : db1.history.filter (sameKey v1) = [applyVals v1 db.now db.nextHistoryId] := by
      rw [hdb1, filter_upsert, if_neg hany]
    have hany2 : db1.history.any (sameKey v2) = true := by
      rw [hsame]; exact any_of_filter_singleton hfilt1
    refine ⟨db.nextHistoryId, ?_⟩
    rw [filter_upsert, if_pos hany2, hsame, hfilt1, upsert_now]
    rfl

/-- Witness for C8 at a concrete database and two concrete upserts. -/
theorem upsert_idempotent_witness :
    ∃ id, (upsertUsageHistory (upsertUsageHistory { now := 5 } w8v1) w8v2).history.filter
            (sameKey w8v2) = [applyVals w8v2 5 id] :=
  upsert_idempotent { now := 5 } w8v1 w8v2 ⟨rfl, rfl, rfl⟩ (by decide)

theorem needsRefresh_false_iff (now ea : Int) :
    needsRefresh now ea = false ↔ ea ≠ 0 ∧ now < ea - REFRESH_BUFFER_MS := by
  unfold needsRefresh
  split
  · rename_i h
    simp [h]
  · rename_i h
    simp [h]
    omega

/-- C7: `getValidToken` returns its inputs unchanged with `refreshed = false`
exactly when an expiry is known (non-zero) and the current time is earlier
than the expiry minus the 5-minute buffer; otherwise, with a refresh token
present and a successful exchange, it returns `refreshed = true` with the new
absolute expiry `now + expires_in` seconds.  `needsRefresh` holds at
`now + 4min`, fails at `now + 10min`, and holds when no expiry is known. -/
theorem getValidToken_spec (o : Except String RefreshResult) (now : Int)
    (a r : String) (ea : Int) :
    (getValidToken o now a r ea = Except.ok ⟨a, r, ea, false⟩ ↔
      ea ≠ 0 ∧ now < ea - REFRESH_BUFFER_MS) ∧
    (needsRefresh now ea = true → r ≠ "" → ∀ res, o = Except.ok res →
      getValidToken o now a r ea =
        Except.ok ⟨res.accessToken, res.refreshToken, now + res.expiresIn * 1000, true⟩) ∧
    needsRefresh now (now + 4 * 60 * 1000) = true ∧
    (0 ≤ now → needsRefresh now (now + 10 * 60 * 1000) = false) ∧
    needsRefresh now 0 = true := by
  refine ⟨?_, ?_, ?_, ?_, ?_⟩
  · by_cases hnr : needsRefresh now ea = false
    · rw [getValidToken.eq_def, if_pos hnr]
      simp [(needsRefresh_false_iff now ea).mp hnr]
    · rw [getValidToken.eq_def, if_neg hnr]
      rw [← needsRefresh_false_iff now ea]
      constructor
      · intro h
        by_cases hr : r = ""
        · rw [if_pos hr] at h
          cases h
        · rw [if_neg hr] at h
          cases o with
          | error e => cases h
          | ok res => simp at h
      · intro h
        exact absurd h hnr
  · intro hnr hr res hres
    rw [getValidToken.eq_def, if_neg (by rw [hnr]; simp), if_neg hr, hres]
  · unfold needsRefresh
    split
    · rfl
    · simp only [REFRESH_BUFFER_MS, ge_iff_le, decide_eq_true_eq]
      omega
  · intro hpos
    rw [needsRefresh, if_neg (by omega)]
    simp only [REFRESH_BUFFER_MS, ge_iff_le, decide_eq_false_iff_not, not_le]
    omega
  · rfl

/-- Witness for C7: a concrete expired token is exchanged, and the concrete
buffer examples evaluate as claimed. -/
theorem getValidToken_spec_witness :
    getValidToken (Except.ok ⟨"na", "nr", 3600⟩) 1000000 "A" "R" 0 =
        Except.ok ⟨"na", "nr", 1000000 + 3600 * 1000, true⟩ ∧
      needsRefresh 1000000 (1000000 + 4 * 60 * 1000) = true ∧
      needsRefresh 1000000 (1000000 + 10 * 60 * 1000) = false ∧
      needsRefresh 1000000 0 = true := by
  have h := getValidToken_spec (Except.ok ⟨"na", "nr", 3600⟩) 1000000 "A" "R" 0
  exact ⟨h.2.1 (by decide) (by decide) _ rfl, h.2.2.1, h.2.2.2.1 (by decide), h.2.2.2.2⟩

/-! ### Lemmas about `saveUsage` and the chain -/

theorem insertDetail_history (db : Db) (v : DetailInput) :
    (insertUsageDetail db v).history = db.history := rfl

theorem foldl_insert_history {α : Type} (g : α → DetailInput) :
    ∀ (l : List α) (db : Db),
      (l.foldl (fun d m => insertUsageDetail d (g m)) db).history = db.history
  | [], _ => rfl
  | a :: l, db => by
    rw [List.foldl_cons, foldl_insert_history g l, insertDetail_history]

theorem foldl_insert_accounts {α : Type} (g : α → DetailInput) :
    ∀ (l : List α) (db : Db),
      (l.foldl (fun d m => insertUsageDetail d (g m)) db).accounts = db.accounts
  | [], _ => rfl
  | a :: l, db => by
    rw [List.foldl_cons, foldl_insert_accounts g l]
    rfl

theorem foldl_insert_now {α : Type} (g : α → DetailInput) :
    ∀ (l : List α) (db : Db),
      (l.foldl (fun d m => insertUsageDetail d (g m)) db).now = db.now
  | [], _ => rfl
  | a :: l, db => by
    rw [List.foldl_cons, foldl_insert_now g l]
    rfl

theorem saveUsage_history (ctx : FetchCtx) (planLimit : ℚ) (parsed : Parsed) (db : Db) :
    (saveUsage ctx planLimit parsed db).history =
      (upsertUsageHistory db (saveInput ctx planLimit parsed)).history := by
  unfold saveUsage
  dsimp only
  split
  · split
    · rw [foldl_insert_history]
      rfl
    · rfl
  · rfl

theorem saveUsage_accounts (ctx : FetchCtx) (planLimit : ℚ) (parsed : Parsed) (db : Db) :
    (saveUsage ctx planLimit parsed db).accounts = db.accounts := by
  unfold saveUsage
  dsimp only
  split
  · split
    · rw [foldl_insert_accounts]
      exact upsert_accounts db _
    · exact upsert_accounts db _
  · exact upsert_accounts db _

theorem saveUsage_now (ctx : FetchCtx) (planLimit : ℚ) (parsed : Parsed) (db : Db) :
    (saveUsage ctx planLimit parsed db).now = db.now := by
  unfold saveUsage
  dsimp only
  split
  · split
    · rw [foldl_insert_now]
      exact upsert_now db _
    · exact upsert_now db _
  · exact upsert_now db _

theorem any_eq_false_of_filter_nil {l : List HistoryRow} {p : HistoryRow → Bool}
    (h : l.filter p = []) : l.any p = false := by
  rw [List.filter_eq_nil_iff] at h
  rw [Bool.eq_false_iff]
  intro ha
  rcases List.any_eq_true.mp ha with ⟨a, hm, hp⟩
  exact h a hm hp

theorem filter_upsert_fresh (db : Db) (v : UpsertInput)
    (hfresh : db.history.filter (sameKey v) = []) :
    (upsertUsageHistory db v).history.filter (sameKey v) =
      [applyVals v db.now db.nextHistoryId] := by
  rw [filter_upsert, if_neg]
  rw [Bool.not_eq_true]
  exact any_eq_false_of_filter_nil hfresh

/-- C2: with a known billing org whose user-filtered premium endpoint parses
to zero and whose unfiltered premium endpoint parses to non-zero usage, the
chain persists the unfiltered result after exactly those two calls — the org
general-billing leg and the personal endpoints are never reached. -/
theorem fetch_chain_order (net : Network) (accountId : Nat)
    (username plan org : String) (year month : Nat) (db : Db)
    (d0 d1 : UsageData)
    (horg : org ≠ "")
    (h0 : net.orgPremiumUsage org (some username) = Except.ok d0)
    (h0z : (parseUsageData d0 (planLimitOf plan)).grossQuantity = 0)
    (h1 : net.orgPremiumUsage org none = Except.ok d1)
    (h1q : 0 < (parseUsageData d1 (planLimitOf plan)).grossQuantity)
    (hfresh : db.history.filter
      (sameKey (saveInput ⟨accountId, username, plan, year, month⟩ (planLimitOf plan)
        (parseUsageData d1 (planLimitOf plan)))) = []) :
    fetchAndStoreUsage net accountId username plan org year month db =
      (some (parseUsageData d1 (planLimitOf plan)),
       saveUsage ⟨accountId, username, plan, year, month⟩ (planLimitOf plan)
         (parseUsageData d1 (planLimitOf plan)) db,
       [Call.orgPremium org (some username), Call.orgPremium org none]) ∧
    Call.userPremium ∉
      (fetchAndStoreUsage net accountId username plan org year month db).2.2 ∧
    Call.userBilling ∉
      (fetchAndStoreUsage net accountId username plan org year month db).2.2 ∧
    (fetchAndStoreUsage net accountId username plan org year month db).2.1.history.filter
        (sameKey (saveInput ⟨accountId, username, plan, year, month⟩ (planLimitOf plan)
          (parseUsageData d1 (planLimitOf plan)))) =
      [applyVals (saveInput ⟨accountId, username, plan, year, month⟩ (planLimitOf plan)
        (parseUsageData d1 (planLimitOf plan))) db.now db.nextHistoryId] := by
  have hmain : fetchAndStoreUsage net accountId username plan org year month db =
      (some (parseUsageData d1 (planLimitOf plan)),
       saveUsage ⟨accountId, username, plan, year, month⟩ (planLimitOf plan)
         (parseUsageData d1 (planLimitOf plan)) db,
       [Call.orgPremium org (some username), Call.orgPremium org none]) := by
    unfold fetchAndStoreUsage tryOrgEndpoints tryOrgUnfilteredLeg
    simp only [horg, if_pos, if_neg, ite_not, if_true, ne_eq, not_false_iff,
      h0, h1, h0z, gt_iff_lt, lt_self_iff_false, if_false, h1q, if_true,
      List.nil_append, List.append_nil, List.cons_append]
  refine ⟨hmain, ?_, ?_, ?_⟩
  · rw [hmain]; simp
  · rw [hmain]; simp
  · rw [hmain]
    simp only []
    rw [saveUsage_history, filter_upsert_fresh db _ hfresh]

/-- Witness for C2: concrete org mock where the filtered endpoint parses to
zero and the unfiltered one to 60 premium requests. -/
theorem fetch_chain_order_witness :
    fetchAndStoreUsage c2net 1 "alice" "pro" "acme" 2025 10 c2db =
      (some (parseUsageData c2d1 (planLimitOf "pro")),
       saveUsage ⟨1, "alice", "pro", 2025, 10⟩ (planLimitOf "pro")
         (parseUsageData c2d1 (planLimitOf "pro")) c2db,
       [Call.orgPremium "acme" (some "alice"), Call.orgPremium "acme" none]) ∧
      Call.userPremium ∉ (fetchAndStoreUsage c2net 1 "alice" "pro" "acme" 2025 10 c2db).2.2 :=
  have h := fetch_chain_order c2net 1 "alice" "pro" "acme" 2025 10 c2db c2d0 c2d1
    (by decide) rfl (by decide) rfl (by decide) rfl
  ⟨h.1, h.2.1⟩

/-! ### C1: behaviour when every source fails transiently -/

theorem tryOrgEndpoints_error (net : Network) (ctx : FetchCtx) (planLimit : ℚ)
    (hA : ∀ o u, net.orgPremiumUsage o u = Except.error ())
    (hB : ∀ o, net.orgBillingUsage o = Except.error ())
    (org : String) (db : Db) (tr : List Call) :
    tryOrgEndpoints net ctx planLimit org db tr =
      (none, db, tr ++ [Call.orgPremium org (some ctx.username),
        Call.orgPremium org none, Call.orgBilling org]) := by
  unfold tryOrgEndpoints tryOrgUnfilteredLeg tryOrgBillingLeg
  simp [hA, hB]

theorem orgScanLoop_error (net : Network) (ctx : FetchCtx) (planLimit : ℚ)
    (hA : ∀ o u, net.orgPremiumUsage o u = Except.error ())
    (hB : ∀ o, net.orgBillingUsage o = Except.error ())
    (billingOrg : String) :
    ∀ (orgs : List String) (db : Db) (tr : List Call),
      ∃ tr2, orgScanLoop net ctx planLimit billingOrg orgs db tr = (none, db, tr2)
  | [], db, tr => ⟨tr, rfl⟩
  | org :: rest, db, tr => by
    by_cases h : org = billingOrg
    · obtain ⟨tr3, ih2⟩ :=
        orgScanLoop_error net ctx planLimit hA hB billingOrg rest db tr
      refine ⟨tr3, ?_⟩
      rw [orgScanLoop, if_pos h]
      exact ih2
    · obtain ⟨tr2, ih⟩ := orgScanLoop_error net ctx planLimit hA hB billingOrg rest db
        (tr ++ [Call.orgPremium org (some ctx.username), Call.orgPremium org none,
          Call.orgBilling org])
      refine ⟨tr2, ?_⟩
      rw [orgScanLoop, if_neg h, tryOrgEndpoints_error net ctx planLimit hA hB]
      exact ih

theorem updateAccount_history (db : Db) (id : Nat) (f : AccountRow → AccountRow) :
    (updateAccount db id f).history = db.history := rfl

theorem updateAccount_now (db : Db) (id : Nat) (f : AccountRow → AccountRow) :
    (updateAccount db id f).now = db.now := rfl

theorem updateAccount_nextHistoryId (db : Db) (id : Nat) (f : AccountRow → AccountRow) :
    (updateAccount db id f).nextHistoryId = db.nextHistoryId := rfl

/-- A database with the same history table, clock and history counter yields
the same history table after an upsert. -/
theorem upsert_history_congr (db2 db : Db) (v : UpsertInput)
    (h1 : db2.history = db.history) (h2 : db2.now = db.now)
    (h3 : db2.nextHistoryId = db.nextHistoryId) :
    (upsertUsageHistory db2 v).history = (upsertUsageHistory db v).history := by
  unfold upsertUsageHistory
  rw [h1, h2, h3]
  split <;> rfl

theorem fetchOrgScan_error (net : Network) (ctx : FetchCtx) (planLimit : ℚ)
    (hA : ∀ o u, net.orgPremiumUsage o u = Except.error ())
    (hB : ∀ o, net.orgBillingUsage o = Except.error ())
    (billingOrg : String) (allOrgs : List String) (db : Db) (tr : List Call) :
    ∃ db2 tr2, fetchOrgScan net ctx planLimit billingOrg allOrgs db tr =
        (none, upsertUsageHistory db2 (zeroInput ctx planLimit), tr2) ∧
      db2.history = db.history ∧ db2.now = db.now ∧
      db2.nextHistoryId = db.nextHistoryId := by
  unfold fetchOrgScan
  by_cases hscan : (decide (billingOrg ≠ "") || ctx.plan == "business" ||
      ctx.plan == "enterprise") = true
  · rw [if_pos hscan]
    dsimp only
    by_cases hempty : allOrgs.isEmpty = true
    · simp only [if_pos hempty]
      by_cases hlen : net.userOrgList.length > 0
      · simp only [if_pos hlen]
        obtain ⟨tr2, hloop⟩ := orgScanLoop_error net ctx planLimit hA hB billingOrg
          net.userOrgList
          (updateAccount db ctx.accountId
            (fun a => { a with github_orgs := joinComma net.userOrgList }))
          (tr ++ [Call.userOrgs])
        rw [hloop]
        exact ⟨_, tr2, rfl, rfl, rfl, rfl⟩
      · simp only [if_neg hlen]
        obtain ⟨tr2, hloop⟩ := orgScanLoop_error net ctx planLimit hA hB billingOrg
          [] db (tr ++ [Call.userOrgs])
        rw [hloop]
        exact ⟨db, tr2, rfl, rfl, rfl, rfl⟩
    · simp only [if_neg hempty]
      obtain ⟨tr2, hloop⟩ := orgScanLoop_error net ctx planLimit hA hB billingOrg
        allOrgs db tr
      rw [hloop]
      exact ⟨db, tr2, rfl, rfl, rfl, rfl⟩
  · rw [if_neg hscan]
    exact ⟨db, tr, rfl, rfl, rfl, rfl⟩

theorem fetchUserPremium_error (net : Network) (ctx : FetchCtx) (planLimit : ℚ)
    (hA : ∀ o u, net.orgPremiumUsage o u = Except.error ())
    (hB : ∀ o, net.orgBillingUsage o = Except.error ())
    (hC : net.userPremiumUsage = Except.error ())
    (hD : net.userBillingUsage = Except.error ())
    (billingOrg : String) (allOrgs : List String) (db : Db) (tr : List Call) :
    ∃ db2 tr2, fetchUserPremium net ctx planLimit billingOrg allOrgs db tr =
        (none, upsertUsageHistory db2 (zeroInput ctx planLimit), tr2) ∧
      db2.history = db.history ∧ db2.now = db.now ∧
      db2.nextHistoryId = db.nextHistoryId := by
  unfold fetchUserPremium fetchUserBilling
  rw [hC, hD]
  exact fetchOrgScan_error net ctx planLimit hA hB billingOrg allOrgs db
    ((tr ++ [Call.userPremium]) ++ [Call.userBilling])

theorem filter_upsert_single (db : Db) (v : UpsertInput) (r0 : HistoryRow)
    (hsingle : db.history.filter (sameKey v) = [r0]) :
    (upsertUsageHistory db v).history.filter (sameKey v) =
      [applyVals v db.now r0.id] := by
  rw [filter_upsert, if_pos (any_of_filter_singleton hsingle), hsingle]
  rfl

theorem fetchAndStoreUsage_error (net : Network) (accountId : Nat)
    (username plan billingOrgParam : String) (year month : Nat) (db : Db)
    (hA : ∀ o u, net.orgPremiumUsage o u = Except.error ())
    (hB : ∀ o, net.orgBillingUsage o = Except.error ())
    (hC : net.userPremiumUsage = Except.error ())
    (hD : net.userBillingUsage = Except.error ()) :
    ∃ db2 tr2,
      fetchAndStoreUsage net accountId username plan billingOrgParam year month db =
        (none, upsertUsageHistory db2
          (zeroInput ⟨accountId, username, plan, year, month⟩ (planLimitOf plan)), tr2) ∧
      db2.history = db.history ∧ db2.now = db.now ∧
      db2.nextHistoryId = db.nextHistoryId := by
  unfold fetchAndStoreUsage
  dsimp only
  by_cases hp : billingOrgParam ≠ ""
  · simp only [if_pos hp]
    rw [tryOrgEndpoints_error net _ _ hA hB]
    dsimp only
    exact fetchUserPremium_error net _ _ hA hB hC hD _ _ db _
  · simp only [if_neg hp]
    rcases hacc : getAccountById db accountId with _ | a
    · simp only [hacc]
      rw [if_neg (by simp)]
      exact fetchUserPremium_error net _ _ hA hB hC hD _ _ db _
    · simp only [hacc]
      by_cases hb : a.billing_org ≠ ""
      · rw [if_pos hb, tryOrgEndpoints_error net _ _ hA hB]
        dsimp only
        exact fetchUserPremium_error net _ _ hA hB hC hD _ _ db _
      · rw [if_neg hb]
        exact fetchUserPremium_error net _ _ hA hB hC hD _ _ db _

/-- C1 (amended): when every probed billing endpoint errors, the Copilot
refresh still ends in the zero-usage persist — the account's last-known row
for the current month is overwritten by a zero row; transient failure is not
distinguished from a successful zero result. -/
theorem fetch_all_transient_zero (net : Network) (accountId : Nat)
    (username plan billingOrgParam : String) (year month : Nat) (db : Db)
    (hA : ∀ o u, net.orgPremiumUsage o u = Except.error ())
    (hB : ∀ o, net.orgBillingUsage o = Except.error ())
    (hC : net.userPremiumUsage = Except.error ())
    (hD : net.userBillingUsage = Except.error ())
    (r0 : HistoryRow)
    (hsingle : db.history.filter
      (sameKey (zeroInput ⟨accountId, username, plan, year, month⟩
        (planLimitOf plan))) = [r0]) :
    (fetchAndStoreUsage net accountId username plan billingOrgParam year month db).1
        = none ∧
    (fetchAndStoreUsage net accountId username plan billingOrgParam year month
          db).2.1.history.filter
        (sameKey (zeroInput ⟨accountId, username, plan, year, month⟩
          (planLimitOf plan))) =
      [applyVals (zeroInput ⟨accountId, username, plan, year, month⟩
        (planLimitOf plan)) db.now r0.id] := by
  obtain ⟨db2, tr2, heq, e1, e2, e3⟩ := fetchAndStoreUsage_error net accountId username
    plan billingOrgParam year month db hA hB hC hD
  rw [heq]
  refine ⟨rfl, ?_⟩
  dsimp only
  rw [upsert_history_congr db2 db _ e1 e2 e3, filter_upsert_single db _ r0 hsingle]

/-- Counterexample to C1 as stated: with every endpoint failing transiently,
the refresh does not leave the last-known row untouched — the stored 42
premium requests are overwritten by a zero row. -/
theorem fetch_transient_overwrites :
    (fetchAndStoreUsage cNetErr 1 "alice" "pro" "" 2025 10 c1db).2.1.history ≠
        c1db.history ∧
      (fetchAndStoreUsage cNetErr 1 "alice" "pro" "" 2025 10 c1db).2.1.history.map
        (fun r => r.gross_quantity) = [0] ∧
      c1db.history.map (fun r => r.gross_quantity) = [42] := by
  refine ⟨by decide, by decide, by decide⟩

/-- Witness for the amended C1 at the concrete all-error network. -/
theorem fetch_all_transient_zero_witness :
    (fetchAndStoreUsage cNetErr 1 "alice" "pro" "" 2025 10 c1db).1 = none ∧
    (fetchAndStoreUsage cNetErr 1 "alice" "pro" "" 2025 10 c1db).2.1.history.filter
        (sameKey (zeroInput ⟨1, "alice", "pro", 2025, 10⟩ (planLimitOf "pro"))) =
      [applyVals (zeroInput ⟨1, "alice", "pro", 2025, 10⟩ (planLimitOf "pro")) 7 1] :=
  fetch_all_transient_zero cNetErr 1 "alice" "pro" "" 2025 10 c1db
    (fun _ _ => rfl) (fun _ => rfl) rfl rfl
    { id := 1, account_id := 1, year := 2025, month := 10, gross_quantity := 42 }
    (by decide)

/-! ### C3: the organization fallback scan -/

theorem splitOrgs_ne_empty (s : String) : ∀ x ∈ splitOrgs s, x ≠ "" := by
  intro x hx
  unfold splitOrgs at hx
  split at hx
  · cases hx
  · have := List.of_mem_filter hx
    simpa using this

/-- Counterexample to C3 as stated: the account's `billing_org` is `"X"`
(which yields nothing) and the scan finds usage in org `"B"`, whose 50
premium requests are persisted — but `billing_org` is *not* updated to the
yielding organization, because the source only stores it when none was set. -/
theorem org_scan_no_heal_when_set :
    (fetchAndStoreUsage c3net 1 "alice" "pro" "" 2025 10 c3dbx).2.1.accounts.map
        (fun a => a.billing_org) = ["X"] ∧
      (fetchAndStoreUsage c3net 1 "alice" "pro" "" 2025 10 c3dbx).2.1.accounts.map
        (fun a => a.billing_org) ≠ ["B"] ∧
      (fetchAndStoreUsage c3net 1 "alice" "pro" "" 2025 10 c3dbx).2.1.history.map
        (fun r => r.gross_quantity) = [50] := by
  refine ⟨by decide, by decide, by decide⟩

/-- C3 (amended): with no `billing_org` set and a business/enterprise plan,
the scan probes each organization with the full three-endpoint sub-chain in
order, persists the usage of the first org that yields non-zero, and writes
that org back onto the account as `billing_org` — the write-back happens
only because no `billing_org` was set. -/
theorem org_scan_self_heal (net : Network) (accountId : Nat) (username plan : String)
    (year month : Nat) (acc : AccountRow) (db : Db) (orgA orgB : String)
    (dB : UsageData)
    (hplan : plan = "business" ∨ plan = "enterprise")
    (haccid : acc.id = accountId)
    (haccs : db.accounts = [acc])
    (hbo : acc.billing_org = "")
    (horgs : splitOrgs acc.github_orgs = [orgA, orgB])
    (hA1 : net.orgPremiumUsage orgA (some username) = Except.error ())
    (hA2 : net.orgPremiumUsage orgA none = Except.error ())
    (hA3 : net.orgBillingUsage orgA = Except.error ())
    (hB1 : net.orgPremiumUsage orgB (some username) = Except.error ())
    (hB2 : net.orgPremiumUsage orgB none = Except.ok dB)
    (hq : 0 < (parseUsageData dB (planLimitOf plan)).grossQuantity)
    (hC : net.userPremiumUsage = Except.error ())
    (hD : net.userBillingUsage = Except.error ())
    (hfresh : db.history.filter
      (sameKey (saveInput ⟨accountId, username, plan, year, month⟩ (planLimitOf plan)
        (parseUsageData dB (planLimitOf plan)))) = []) :
    (fetchAndStoreUsage net accountId username plan "" year month db).1 =
        some (parseUsageData dB (planLimitOf plan)) ∧
    (fetchAndStoreUsage net accountId username plan "" year month db).2.1.accounts =
        [{ acc with billing_org := orgB }] ∧
    (fetchAndStoreUsage net accountId username plan "" year month db).2.1.history.filter
        (sameKey (saveInput ⟨accountId, username, plan, year, month⟩ (planLimitOf plan)
          (parseUsageData dB (planLimitOf plan)))) =
      [applyVals (saveInput ⟨accountId, username, plan, year, month⟩ (planLimitOf plan)
        (parseUsageData dB (planLimitOf plan))) db.now db.nextHistoryId] ∧
    (fetchAndStoreUsage net accountId username plan "" year month db).2.2 =
      [Call.userPremium, Call.userBilling,
       Call.orgPremium orgA (some username), Call.orgPremium orgA none,
       Call.orgBilling orgA,
       Call.orgPremium orgB (some username), Call.orgPremium orgB none] := by
  have hacc : getAccountById db accountId = some acc := by
    simp [getAccountById, haccs, List.find?, haccid]
  have horgA : orgA ≠ "" :=
    splitOrgs_ne_empty acc.github_orgs orgA (horgs ▸ List.mem_cons_self _ _)
  have horgB : orgB ≠ "" := by
    refine splitOrgs_ne_empty acc.github_orgs orgB ?_
    rw [horgs]
    exact List.mem_cons_of_mem _ (List.mem_cons_self _ _)
  have htryA : ∀ (d : Db) (tr : List Call),
      tryOrgEndpoints net ⟨accountId, username, plan, year, month⟩ (planLimitOf plan)
        orgA d tr =
      (none, d, tr ++ [Call.orgPremium orgA (some username), Call.orgPremium orgA none,
        Call.orgBilling orgA]) := by
    intro d tr
    unfold tryOrgEndpoints tryOrgUnfilteredLeg tryOrgBillingLeg
    simp [hA1, hA2, hA3]
  have htryB : ∀ (d : Db) (tr : List Call),
      tryOrgEndpoints net ⟨accountId, username, plan, year, month⟩ (planLimitOf plan)
        orgB d tr =
      (some (parseUsageData dB (planLimitOf plan)),
       saveUsage ⟨accountId, username, plan, year, month⟩ (planLimitOf plan)
         (parseUsageData dB (planLimitOf plan)) d,
       tr ++ [Call.orgPremium orgB (some username), Call.orgPremium orgB none]) := by
    intro d tr
    unfold tryOrgEndpoints tryOrgUnfilteredLeg
    simp only [hB1, hB2, gt_iff_lt, hq, if_true, List.append_assoc, List.cons_append,
      List.nil_append]
  have hmain : fetchAndStoreUsage net accountId username plan "" year month db =
      (some (parseUsageData dB (planLimitOf plan)),
       updateAccount (saveUsage ⟨accountId, username, plan, year, month⟩
           (planLimitOf plan) (parseUsageData dB (planLimitOf plan)) db) accountId
         (fun a => { a with billing_org := orgB }),
       [Call.userPremium, Call.userBilling,
        Call.orgPremium orgA (some username), Call.orgPremium orgA none,
        Call.orgBilling orgA,
        Call.orgPremium orgB (some username), Call.orgPremium orgB none]) := by
    unfold fetchAndStoreUsage
    dsimp only
    simp only [hacc, hbo, ne_eq, not_true_eq_false, if_neg, ite_false, horgs]
    unfold fetchUserPremium fetchUserBilling
    simp only [hC, hD]
    unfold fetchOrgScan
    have hcond : (decide (("" : String) ≠ "") || plan == "business" ||
        plan == "enterprise") = true := by
      rcases hplan with rfl | rfl <;> decide
    rw [if_pos hcond]
    dsimp only
    rw [if_neg (by simp)]
    rw [orgScanLoop, if_neg horgA, htryA]
    dsimp only
    rw [orgScanLoop, if_neg horgB, htryB]
    dsimp only
    rw [if_pos rfl]
    simp
  refine ⟨?_, ?_, ?_, ?_⟩
  · rw [hmain]
  · rw [hmain]
    show (updateAccount _ accountId _).accounts = _
    unfold updateAccount
    rw [saveUsage_accounts, haccs]
    simp [haccid]
  · rw [hmain]
    show (updateAccount _ accountId _).history.filter _ = _
    rw [updateAccount_history, saveUsage_history, filter_upsert_fresh db _ hfresh]
  · rw [hmain]

/-- Witness for the amended C3 at the concrete two-org scenario (`A` fails,
`B`'s unfiltered endpoint yields 50). -/
theorem org_scan_self_heal_witness :
    (fetchAndStoreUsage c3net 1 "alice" "business" "" 2025 10 c3db).2.1.accounts =
        [{ c3acc with billing_org := "B" }] ∧
      (fetchAndStoreUsage c3net 1 "alice" "business" "" 2025 10 c3db).2.2 =
        [Call.userPremium, Call.userBilling,
         Call.orgPremium "A" (some "alice"), Call.orgPremium "A" none,
         Call.orgBilling "A",
         Call.orgPremium "B" (some "alice"), Call.orgPremium "B" none] :=
  have h := org_scan_self_heal c3net 1 "alice" "business" 2025 10 c3acc
    c3db "A" "B" c3dB (Or.inl rfl) rfl rfl rfl (by decide)
    rfl rfl rfl rfl rfl (by decide) rfl rfl rfl
  ⟨h.2.1, h.2.2.2⟩

/-! ### C4: detail-row replacement on refresh -/

theorem upsert_nextDetailId (db : Db) (v : UpsertInput) :
    (upsertUsageHistory db v).nextDetailId = db.nextDetailId := by
  unfold upsertUsageHistory; split <;> rfl

theorem foldl_insert_details (hid : Nat) :
    ∀ (ms : List ModelItem) (db : Db),
      (ms.foldl (fun d m => insertUsageDetail d
        { history_id := hid, model := m.model, quantity := m.quantity,
          price_per_unit := m.price_per_unit, net_amount := m.net_amount }) db).details
        = db.details ++ mkDetailRows hid db.nextDetailId ms
  | [], db => by simp [mkDetailRows]
  | m :: ms, db => by
    rw [List.foldl_cons, foldl_insert_details hid ms]
    simp [insertUsageDetail, mkDetailRows]

theorem filter_key_of_filter_ne (k : Nat) :
    ∀ l : List DetailRow,
      (l.filter (fun d => d.history_id != k)).filter (fun d => d.history_id == k) = []
  | [] => rfl
  | d :: l => by
    by_cases h : d.history_id = k
    · simp [List.filter_cons, h, filter_key_of_filter_ne k l]
    · simp [List.filter_cons, h, filter_key_of_filter_ne k l]

theorem mkDetailRows_filter_key (hid : Nat) :
    ∀ (nid : Nat) (ms : List ModelItem),
      (mkDetailRows hid nid ms).filter (fun d => d.history_id == hid) =
        mkDetailRows hid nid ms
  | _, [] => rfl
  | nid, m :: ms => by
    simp [mkDetailRows, List.filter_cons, mkDetailRows_filter_key hid (nid + 1) ms]

/-- C4 (amended): on a refresh whose fetched per-model breakdown is
non-empty, the latest history row's detail rows are fully replaced
(delete-then-insert): afterwards the row owns exactly the rows built from the
new breakdown and nothing from an earlier fetch.  (When the breakdown is
empty, the source skips the delete and earlier rows survive — see the
counterexample.) -/
theorem save_replaces_details (ctx : FetchCtx) (planLimit : ℚ) (parsed : Parsed)
    (db : Db) (u : HistoryRow)
    (hm : parsed.models ≠ [])
    (hlatest : getLatestUsage (upsertUsageHistory db (saveInput ctx planLimit parsed))
      ctx.accountId = some u) :
    (saveUsage ctx planLimit parsed db).details =
      db.details.filter (fun d => d.history_id != u.id) ++
        mkDetailRows u.id db.nextDetailId parsed.models ∧
    (saveUsage ctx planLimit parsed db).details.filter
        (fun d => d.history_id == u.id) =
      mkDetailRows u.id db.nextDetailId parsed.models := by
  have hlen : parsed.models.length > 0 := List.length_pos.mpr hm
  have hdet : (saveUsage ctx planLimit parsed db).details =
      db.details.filter (fun d => d.history_id != u.id) ++
        mkDetailRows u.id db.nextDetailId parsed.models := by
    unfold saveUsage
    dsimp only
    rw [hlatest]
    dsimp only
    rw [if_pos hlen, foldl_insert_details]
    unfold clearUsageDetails
    dsimp only
    rw [upsert_details, upsert_nextDetailId]
  refine ⟨hdet, ?_⟩
  rw [hdet, List.filter_append, filter_key_of_filter_ne, mkDetailRows_filter_key]
  rfl

/-- Counterexample to C4 as stated: a successful refresh that persists
7 premium requests from the user billing endpoint (whose line items carry no
model/sku, so the parsed breakdown is empty) leaves the earlier fetch's
detail row in place — it is not deleted. -/
theorem refresh_keeps_stale_details :
    (fetchAndStoreUsage c4net 1 "alice" "pro" "" 2025 10 c4db).2.1.details =
        [c4det] ∧
      (fetchAndStoreUsage c4net 1 "alice" "pro" "" 2025 10 c4db).2.1.history.map
        (fun r => r.gross_quantity) = [7] := by
  refine ⟨by decide, by decide⟩

/-- Witness for the amended C4 at a concrete non-empty breakdown. -/
theorem save_replaces_details_witness :
    (saveUsage ⟨1, "u", "pro", 2025, 10⟩ (planLimitOf "pro") c4parsed c4wdb).details =
      c4wdb.details.filter (fun d => d.history_id != c4u.id) ++
        mkDetailRows c4u.id c4wdb.nextDetailId c4parsed.models ∧
    (saveUsage ⟨1, "u", "pro", 2025, 10⟩ (planLimitOf "pro") c4parsed
        c4wdb).details.filter (fun d => d.history_id == c4u.id) =
      mkDetailRows c4u.id c4wdb.nextDetailId c4parsed.models :=
  save_replaces_details ⟨1, "u", "pro", 2025, 10⟩ (planLimitOf "pro") c4parsed c4wdb
    c4u (by decide) (by decide)

/-! ### C9: refresh with a missing or undecryptable credential -/

/-- C9: when the stored credential decrypts to the empty string (empty field
or decryption failure), `refreshAccount` returns at once: no exception, no
network call, and a database identical to the input. -/
theorem refreshAccount_no_credential (vault : Vault) (net : Network) (now : Int)
    (year month : Nat) (acc : AccountRow) (db : Db)
    (h : vault.dec acc.pat_token = "") :
    refreshAccount vault net now year month acc db = ⟨db, [], none⟩ := by
  unfold refreshAccount
  dsimp only
  rw [if_pos h]

/-- Witness for C9 at a concrete vault whose decryption fails closed. -/
theorem refreshAccount_no_credential_witness :
    refreshAccount c9vault cNetErr 0 2025 10 { id := 1, pat_token := "junk" }
        { now := 0 } =
      ⟨{ now := 0 }, [], none⟩ :=
  refreshAccount_no_credential c9vault cNetErr 0 2025 10
    { id := 1, pat_token := "junk" } { now := 0 } rfl

/-- C10: a mutating request with neither proxy header is keyed `"unknown"`
(so all such clients share one window); a key's first request always passes;
and of 31 same-key requests inside one 60-second window the first 30 reach
the handler while the 31st is rejected without invoking it. -/
theorem rate_limit_spec :
    (∀ r : Req, r.method ≠ "GET" → r.xForwardedFor = none → r.xRealIp = none →
      clientIp r = "unknown") ∧
    (∀ (now : Int) (m : List (String × RLEntry)) (key : String),
      m.lookup key = none → (rateLimit now m key).1 = false) ∧
    (middlewareRun (mutReqs 31) []).2 = List.replicate 30 true ++ [false] := by
  refine ⟨?_, ?_, ?_⟩
  · intro r hm h1 h2
    simp [clientIp, jsOrS, h1, h2]
  · intro now m key h
    simp [rateLimit, h]
  · decide

/-- Witness for C10 at concrete requests and maps. -/
theorem rate_limit_spec_witness :
    clientIp mutReq = "unknown" ∧
      (rateLimit 0 [] "unknown").1 = false ∧
      (middlewareRun (mutReqs 31) []).2 = List.replicate 30 true ++ [false] :=
  have h := rate_limit_spec
  ⟨h.1 mutReq (by decide) rfl rfl, h.2.1 0 [] "unknown" rfl, h.2.2⟩

end Kuota
